import Mathlib

set_option maxRecDepth 8000

namespace Christopher

/-!
Shallow embedding of the Sudoku solver from src/src/main.rs.

Representation choices:
* `u8` digits are modelled as `Nat` (all values in play are 0..9, no overflow).
* A Rust `[u8; 9]` candidate array is modelled as a `List Nat`; every write the
  program performs produces a sorted vector padded with zeros to length 9
  (`padTo9`), mirroring `Cell::set_candidates`.
* `HashSet<u8>` values are modelled as lists used only through membership,
  and drains followed by `sort` are modelled as sorted deduplicated lists.
* The 9x9 grid is a total function `Fin 9 → Fin 9 → Cell`; in-place loops whose
  iterations touch disjoint cells and read only data the loop does not write
  are modelled as pointwise updates, while order-dependent loops (the water
  cannon scan, the fixpoint loop, the outer solve loop) are kept sequential.
* Unbounded `loop`s are given explicit fuel; the fuel constants are fixed.
-/

structure Cell where
  number : Option Nat
  given : Bool
  candidates : List Nat
deriving DecidableEq

abbrev Grid := Fin 9 → Fin 9 → Cell

inductive Consolidation where
  | SingleCandidateForCell (a : Nat × Nat × Nat × Nat)
  | OnlyOnePossibleCandidateForBlock (a : Nat × Nat × Nat × Nat)
  | OnlyOnePossibleCandidateForRow (a : Nat × Nat × Nat × Nat)
  | OnlyOnePossibleCandidateForColumn (a : Nat × Nat × Nat × Nat)
deriving DecidableEq

inductive IllDefinedReason where
  | NoPossibleSolution (row col : Nat)
  | NumberRepeatsInRow (number : Nat) (row : Nat)
  | NumberRepeatsInColumn (number : Nat) (col : Nat)
  | NumberRepeatsInBlock (number : Nat) (block : Nat)
deriving DecidableEq

inductive PuzzleStatus where
  | Solved
  | Unsolved
  | IllDefined (reason : IllDefinedReason)
deriving DecidableEq

inductive WaterCannonSights where
  | Row (r : Fin 3)
  | Column (c : Fin 3)
  | None
deriving DecidableEq

structure Guess where
  row : Fin 9
  column : Fin 9
  number : Nat
deriving DecidableEq

/-- Pad a candidate vector with zeros to the fixed array size 9
(the in-memory form of `[u8; 9]` after `set_candidates`). -/
def padTo9 (l : List Nat) : List Nat := l ++ List.replicate (9 - l.length) 0

/-- `Cell::candidates_as_vec`: the positive entries of the candidate array, in order. -/
def candidates_as_vec (c : Cell) : List Nat := c.candidates.filter (fun x => decide (0 < x))

/-- `Cell::set_candidates`: sort the vector and write it into the zeroed array. -/
def set_candidates (c : Cell) (v : List Nat) : Cell :=
  { c with candidates := padTo9 (List.insertionSort (· ≤ ·) v) }

/-- `Cell::remove_candidate`: drop the first occurrence of `number` from the
candidate vector; returns the updated cell and whether a removal happened. -/
def remove_candidate (c : Cell) (number : Nat) : Cell × Bool :=
  if number ∈ candidates_as_vec c then
    (set_candidates c ((candidates_as_vec c).erase number), true)
  else (c, false)

/-- `reduce_candidates_by_uniqueness`: the distinct candidate vectors occurring
with multiplicity above one and equal to their own length (pinned pairs,
triplets, quadruplets, ...). `HashBag::set_iter` enumerates each distinct
vector once with its count; the iteration order does not matter because
set-removals commute. -/
def pinnedSets (candidates : List (List Nat)) : List (List Nat) :=
  candidates.dedup.filter
    (fun s => decide (1 < candidates.count s ∧ candidates.count s = s.length))

/-- `reduce_candidates_by_uniqueness`: for each of the 9 input vectors, remove
the members of every pinned set other than the vector itself; each result is
the drained `HashSet` sorted ascending (sorted, without duplicates). -/
def reduce_candidates_by_uniqueness (candidates : List (List Nat)) : List (List Nat) :=
  let pinned := pinnedSets candidates
  (List.range 9).map (fun i =>
    let orig := candidates.getD i []
    List.insertionSort (· ≤ ·)
      ((orig.filter (fun x => decide (∀ p ∈ pinned, p = orig ∨ x ∉ p))).dedup))

/-- The pinned-pair example group from the spec. -/
def pinnedPairExample : List (List Nat) :=
  [[2,7],[2,5,7,8],[1],[3],[9],[4],[6],[5,8],[5,8]]

/-! Grid addressing (`Puzzle::block`, `row`, `column` and the index helpers). -/

/-- `block_num_for_row_col`. -/
def block_num_for_row_col (row col : Fin 9) : Fin 9 :=
  ⟨(row.val / 3) * 3 + col.val / 3, by
    have hr := row.isLt; have hc := col.isLt; omega⟩

/-- The grid cell at local position `(i, j)` of block `b`
(`Puzzle::block`, with `origin_x = b % 3`, `origin_y = b / 3`). -/
def blockCell (g : Grid) (b : Fin 9) (i j : Fin 3) : Cell :=
  g ⟨(b.val / 3) * 3 + i.val, by have hb := b.isLt; have hi := i.isLt; omega⟩
    ⟨(b.val % 3) * 3 + j.val, by have hb := b.isLt; have hj := j.isLt; omega⟩

/-- `Puzzle::row` as a list of 9 cells. -/
def row (g : Grid) (r : Fin 9) : List Cell := (List.finRange 9).map (fun i => g r i)

/-- `Puzzle::column` as a list of 9 cells. -/
def column (g : Grid) (c : Fin 9) : List Cell := (List.finRange 9).map (fun i => g i c)

/-- `Puzzle::block_as_slice`: the block's 9 cells in local row-major order. -/
def block_as_slice (g : Grid) (b : Fin 9) : List Cell :=
  ((List.finRange 3) ×ˢ (List.finRange 3)).map (fun p => blockCell g b p.1 p.2)

/-- Write one cell of the grid. -/
def gridSet (g : Grid) (r c : Fin 9) (cell : Cell) : Grid :=
  fun i j => if i = r ∧ j = c then cell else g i j

/-- `Puzzle::update_block`: assign `number` to the cell at local `(row, col)`
of block `block_num` and clear its candidates. -/
def update_block (g : Grid) (b : Fin 9) (i j : Fin 3) (number : Nat) : Grid :=
  gridSet g ⟨(b.val / 3) * 3 + i.val, by have hb := b.isLt; have hi := i.isLt; omega⟩
    ⟨(b.val % 3) * 3 + j.val, by have hb := b.isLt; have hj := j.isLt; omega⟩
    { blockCell g b i j with number := some number, candidates := List.replicate 9 0 }

/-- `Puzzle::set_number`. -/
def set_number (g : Grid) (r c : Fin 9) (number : Nat) : Grid :=
  gridSet g r c { g r c with number := some number, candidates := List.replicate 9 0 }

/-- `Puzzle::numbers_in_block` (a `HashSet` used only through membership). -/
def numbers_in_block (g : Grid) (b : Fin 9) : List Nat :=
  (block_as_slice g b).filterMap (fun cell => cell.number)

/-- `Puzzle::numbers_in_row`. -/
def numbers_in_row (g : Grid) (r : Fin 9) : List Nat :=
  (row g r).filterMap (fun cell => cell.number)

/-- `Puzzle::numbers_in_column`. -/
def numbers_in_column (g : Grid) (c : Fin 9) : List Nat :=
  (column g c).filterMap (fun cell => cell.number)

/-! Parsing (`Puzzle::parse`).  The input `&str` is modelled as a `List Char`;
`str::trim` is modelled over the ASCII whitespace Lean's `Char.isWhitespace`
recognises, and `split("\n")` as `List.splitOn '\n'`.  Writes out of the 9×9
range (which would panic in Rust) are modelled as skips; all theorems about
`parse` restrict the input to the in-range shapes the program accepts. -/

def trimChars (l : List Char) : List Char :=
  ((l.dropWhile Char.isWhitespace).reverse.dropWhile Char.isWhitespace).reverse

/-- `char::to_digit(10)`. -/
def charToDigit10 (c : Char) : Option Nat :=
  if '0' ≤ c ∧ c ≤ '9' then some (c.toNat - 48) else none

/-- A cell made from a parsed digit: `given = true`, empty candidate array. -/
def givenCell (d : Nat) : Cell := ⟨some d, true, List.replicate 9 0⟩

/-- The cell every grid position starts from in `Puzzle::parse`. -/
def blankCell : Cell := ⟨none, false, List.replicate 9 0⟩

/-- The body of the character loop of `Puzzle::parse`: a digit becomes a given
cell at `(i, j)`, anything else writes nothing. -/
def writeDigit (g : Grid) (i : Fin 9) (j : Nat) (ch : Char) : Grid :=
  match charToDigit10 ch with
  | some d => if h : j < 9 then gridSet g i ⟨j, h⟩ (givenCell d) else g
  | none => g

/-- One line of `Puzzle::parse`: `for (j, c) in trimmed.chars().enumerate()`,
writing a given cell for every character that parses as a decimal digit. -/
def processLine (i : Fin 9) : Grid → Nat → List Char → Grid
  | g, _, [] => g
  | g, j, ch :: rest => processLine i (writeDigit g i j ch) (j + 1) rest

/-- One line iteration of `Puzzle::parse`: a blank (after trimming) line
writes nothing, any other line is scanned character by character. -/
def processOneLine (g : Grid) (i : Nat) (line : List Char) : Grid :=
  if (trimChars line).length = 0 then g
  else if h : i < 9 then processLine ⟨i, h⟩ g 0 (trimChars line) else g

/-- The line loop of `Puzzle::parse`: `for (i, line_str) in
input.trim().split("\n").enumerate()`.  Note the index `i` advances on every
line of the split, blank or not. -/
def processLines : Grid → Nat → List (List Char) → Grid
  | g, _, [] => g
  | g, i, line :: rest => processLines (processOneLine g i line) (i + 1) rest

/-- `Puzzle::parse`. -/
def parse (input : List Char) : Grid :=
  processLines (fun _ _ => blankCell) 0 ((trimChars input).splitOn '\n')

/-! The status classifier (`Puzzle::status`). -/

/-- All `(row, col)` pairs in row-major order. -/
def rowMajorPairs : List (Fin 9 × Fin 9) := (List.finRange 9) ×ˢ (List.finRange 9)

def count_number_in_row (g : Grid) (r : Fin 9) (needle : Nat) : Nat :=
  (row g r).countP (fun cell => decide (cell.number = some needle))

def count_number_in_column (g : Grid) (c : Fin 9) (needle : Nat) : Nat :=
  (column g c).countP (fun cell => decide (cell.number = some needle))

def count_number_in_block (g : Grid) (b : Fin 9) (needle : Nat) : Nat :=
  (block_as_slice g b).countP (fun cell => decide (cell.number = some needle))

/-- `Puzzle::status`.  The `unassignable` vector is built by the full row-major
scan and its head returned; the three duplicate scans return at the first
counted duplicate (early return modelled with `findSome?`); the final scan
returns `Unsolved` at the first unassigned cell, else `Solved`. -/
def status (g : Grid) : PuzzleStatus :=
  match (rowMajorPairs.filterMap (fun p =>
    if decide ((g p.1 p.2).number = none ∧ candidates_as_vec (g p.1 p.2) = []) then
      some (PuzzleStatus.IllDefined (IllDefinedReason.NoPossibleSolution p.1.val p.2.val))
    else none)).head? with
  | some s => s
  | none =>
    match (List.finRange 9).findSome? (fun i => (List.range' 1 9).findSome? (fun needle =>
      if decide (1 < count_number_in_row g i needle) then
        some (PuzzleStatus.IllDefined (IllDefinedReason.NumberRepeatsInRow needle i.val))
      else none)) with
    | some s => s
    | none =>
      match (List.finRange 9).findSome? (fun i => (List.range' 1 9).findSome? (fun needle =>
        if decide (1 < count_number_in_column g i needle) then
          some (PuzzleStatus.IllDefined (IllDefinedReason.NumberRepeatsInColumn needle i.val))
        else none)) with
      | some s => s
      | none =>
        match (List.finRange 9).findSome? (fun b => (List.range' 1 9).findSome? (fun needle =>
          if decide (1 < count_number_in_block g b needle) then
            some (PuzzleStatus.IllDefined (IllDefinedReason.NumberRepeatsInBlock needle b.val))
          else none)) with
        | some s => s
        | none =>
          if rowMajorPairs.all (fun p => (g p.1 p.2).number.isSome) then PuzzleStatus.Solved
          else PuzzleStatus.Unsolved

/-! Specification-side form of the classifier: each stage as an explicit
first-match over the scan order the spec describes. -/

/-- Spec: first unresolved cell with an empty candidate set, row-major. -/
def firstEmptyCell (g : Grid) : Option (Fin 9 × Fin 9) :=
  rowMajorPairs.find? (fun p =>
    decide ((g p.1 p.2).number = none ∧ candidates_as_vec (g p.1 p.2) = []))

/-- Spec: first `(row, value)` in the scan order rows 0..8 then values 1..9
whose assigned-value count in that row exceeds one. -/
def firstRowRepeat (g : Grid) : Option (Fin 9 × Nat) :=
  ((List.finRange 9) ×ˢ (List.range' 1 9)).find? (fun p =>
    decide (1 < count_number_in_row g p.1 p.2))

/-- Spec: same scan over columns. -/
def firstColumnRepeat (g : Grid) : Option (Fin 9 × Nat) :=
  ((List.finRange 9) ×ˢ (List.range' 1 9)).find? (fun p =>
    decide (1 < count_number_in_column g p.1 p.2))

/-- Spec: same scan over blocks. -/
def firstBlockRepeat (g : Grid) : Option (Fin 9 × Nat) :=
  ((List.finRange 9) ×ˢ (List.range' 1 9)).find? (fun p =>
    decide (1 < count_number_in_block g p.1 p.2))

/-- Modelled from the spec: the status classifier as the first match in the
fixed order empty-candidate cell, row repeat, column repeat, block repeat,
then Solved/Unsolved by completeness. -/
def statusSpec (g : Grid) : PuzzleStatus :=
  match firstEmptyCell g with
  | some p => PuzzleStatus.IllDefined (IllDefinedReason.NoPossibleSolution p.1.val p.2.val)
  | none =>
  match firstRowRepeat g with
  | some p => PuzzleStatus.IllDefined (IllDefinedReason.NumberRepeatsInRow p.2 p.1.val)
  | none =>
  match firstColumnRepeat g with
  | some p => PuzzleStatus.IllDefined (IllDefinedReason.NumberRepeatsInColumn p.2 p.1.val)
  | none =>
  match firstBlockRepeat g with
  | some p => PuzzleStatus.IllDefined (IllDefinedReason.NumberRepeatsInBlock p.2 p.1.val)
  | none =>
  if decide (∀ r c : Fin 9, (g r c).number ≠ none) then PuzzleStatus.Solved
  else PuzzleStatus.Unsolved

/-! The candidate engine (`Puzzle::assign_candidates` and its two
elimination passes). -/

/-- The first phase of `assign_candidates`: every cell without a number gets
`{1..9}` minus the numbers present in its block, row and column, drained and
sorted.  The loop writes only candidate arrays and reads only numbers, so it
is modelled pointwise. -/
def cellInitialCandidates (g : Grid) (r c : Fin 9) : List Nat :=
  padTo9 ((List.range' 1 9).filter (fun p =>
    decide (p ∉ numbers_in_block g (block_num_for_row_col r c) ++
      numbers_in_row g r ++ numbers_in_column g c)))

def initial_candidates (g : Grid) : Grid := fun r c =>
  match (g r c).number with
  | some _ => g r c
  | none => { g r c with candidates := cellInitialCandidates g r c }

/-- The reduced candidate vectors for row `i`
(input of `reduce_candidates_with_sara_flex`, rows part). -/
def row_reduced (g : Grid) (i : Fin 9) : List (List Nat) :=
  reduce_candidates_by_uniqueness ((List.finRange 9).map (fun j => candidates_as_vec (g i j)))

def column_reduced (g : Grid) (i : Fin 9) : List (List Nat) :=
  reduce_candidates_by_uniqueness ((List.finRange 9).map (fun j => candidates_as_vec (g j i)))

def block_reduced (g : Grid) (b : Fin 9) : List (List Nat) :=
  reduce_candidates_by_uniqueness ((block_as_slice g b).map candidates_as_vec)

/-- The candidate array the rows pass wants to write at `(i, j)`. -/
def rowNewCand (g : Grid) (i j : Fin 9) : List Nat := padTo9 ((row_reduced g i).getD j.val [])

/-- The rows pass of `reduce_candidates_with_sara_flex`: each row's vectors are
reduced by uniqueness and written back where changed, counting changed cells.
The nine rows are disjoint and each row's input is read before its writes, so
the pass is modelled pointwise. -/
def sara_rows (g : Grid) : Grid × Nat :=
  (fun i j => if rowNewCand g i j = (g i j).candidates then g i j
     else { g i j with candidates := rowNewCand g i j },
   rowMajorPairs.countP (fun p => decide (rowNewCand g p.1 p.2 ≠ (g p.1 p.2).candidates)))

/-- The candidate array the columns pass wants to write at `(i, j)`. -/
def colNewCand (g : Grid) (i j : Fin 9) : List Nat :=
  padTo9 ((column_reduced g j).getD i.val [])

/-- The columns pass, run on the grid the rows pass produced. -/
def sara_columns (g : Grid) : Grid × Nat :=
  (fun i j => if colNewCand g i j = (g i j).candidates then g i j
     else { g i j with candidates := colNewCand g i j },
   rowMajorPairs.countP (fun p => decide (colNewCand g p.1 p.2 ≠ (g p.1 p.2).candidates)))

/-- The local index of a cell inside its block (`j / 3`, `j % 3` in the code's
block slice). -/
def localIndex (r c : Fin 9) : Nat := (r.val % 3) * 3 + c.val % 3

/-- The candidate array the blocks pass wants to write at `(i, j)`. -/
def blockNewCand (g : Grid) (i j : Fin 9) : List Nat :=
  padTo9 ((block_reduced g (block_num_for_row_col i j)).getD (localIndex i j) [])

/-- The blocks pass (`update_block_candidates` compares and writes). -/
def sara_blocks (g : Grid) : Grid × Nat :=
  (fun i j => if blockNewCand g i j = (g i j).candidates then g i j
     else { g i j with candidates := blockNewCand g i j },
   rowMajorPairs.countP (fun p => decide (blockNewCand g p.1 p.2 ≠ (g p.1 p.2).candidates)))

/-- `Puzzle::reduce_candidates_with_sara_flex`: rows, then columns, then
blocks, summing the reduction counts. -/
def sara_flex (g : Grid) : Grid × Nat :=
  ((sara_blocks (sara_columns (sara_rows g).1).1).1,
   (sara_rows g).2 + (sara_columns (sara_rows g).1).2 +
     (sara_blocks (sara_columns (sara_rows g).1).1).2)

/-- `line_up_water_cannon`: the block cells holding `number` as a candidate, in
local row-major order; exactly 2 or 3 of them aligned on a local row (checked
first) or column give the sights. -/
def cannon_sights (block : Fin 3 → Fin 3 → Cell) (number : Nat) : List (Fin 3 × Fin 3) :=
  ((List.finRange 3) ×ˢ (List.finRange 3)).filter
    (fun p => decide (number ∈ candidates_as_vec (block p.1 p.2)))

def line_up_water_cannon (block : Fin 3 → Fin 3 → Cell) (number : Nat) : WaterCannonSights :=
  if (cannon_sights block number).length ≠ 2 ∧ (cannon_sights block number).length ≠ 3 then
    WaterCannonSights.None
  else
    match cannon_sights block number with
    | [] => WaterCannonSights.None
    | s0 :: rest =>
      if rest.all (fun s => decide (s.1 = s0.1)) then WaterCannonSights.Row s0.1
      else if rest.all (fun s => decide (s.2 = s0.2)) then WaterCannonSights.Column s0.2
      else WaterCannonSights.None

/-- The grid row holding local row `r` of block `b`
(`grid_origin_offset_for_block` plus the local offset). -/
def blockRowIdx (b : Fin 9) (r : Fin 3) : Fin 9 :=
  ⟨(b.val / 3) * 3 + r.val, by have hb := b.isLt; have hr := r.isLt; omega⟩

/-- The grid column holding local column `c` of block `b`. -/
def blockColIdx (b : Fin 9) (c : Fin 3) : Fin 9 :=
  ⟨(b.val % 3) * 3 + c.val, by have hb := b.isLt; have hc := c.isLt; omega⟩

/-- One `(block, number)` iteration of
`Puzzle::reduce_candidates_using_water_cannon`: when the sights line up on a
row, `remove_candidate(number)` fires at every column of that grid row outside
the block (`i / 3 == b % 3` is skipped); symmetrically for a column.  The cells
a single iteration touches are pairwise distinct, so it is modelled pointwise;
the iterations themselves are folded sequentially. -/
def water_cannon_step (g : Grid) (b : Fin 9) (number : Nat) : Grid × Nat :=
  match line_up_water_cannon (fun i j => blockCell g b i j) number with
  | WaterCannonSights.Row r =>
    (fun x y => if x = blockRowIdx b r ∧ y.val / 3 ≠ b.val % 3 then
        (remove_candidate (g x y) number).1 else g x y,
     (List.finRange 9).countP (fun y =>
        decide (y.val / 3 ≠ b.val % 3) && (remove_candidate (g (blockRowIdx b r) y) number).2))
  | WaterCannonSights.Column c =>
    (fun x y => if y = blockColIdx b c ∧ x.val / 3 ≠ b.val / 3 then
        (remove_candidate (g x y) number).1 else g x y,
     (List.finRange 9).countP (fun x =>
        decide (x.val / 3 ≠ b.val / 3) && (remove_candidate (g x (blockColIdx b c)) number).2))
  | WaterCannonSights.None => (g, 0)

/-- `Puzzle::reduce_candidates_using_water_cannon`: all blocks 0..8, and for
each block all numbers 1..9, in order. -/
def water_cannon_round (g : Grid) : Grid × Nat :=
  (List.finRange 9).foldl (fun acc b =>
    (List.range' 1 9).foldl (fun acc2 number =>
      ((water_cannon_step acc2.1 b number).1,
       acc2.2 + (water_cannon_step acc2.1 b number).2)) acc) (g, 0)

/-- The fixpoint loop of `assign_candidates`: sara flex then the water cannon,
repeated until a full round makes zero changes.  The loop is given fuel; every
productive round removes at least one candidate from the 81 cells, so
`candidateFuel` rounds always reach the break. -/
def reduce_loop : Nat → Grid → Grid
  | 0, g => g
  | Nat.succ fuel, g =>
    if (sara_flex g).2 + (water_cannon_round (sara_flex g).1).2 = 0 then
      (water_cannon_round (sara_flex g).1).1
    else reduce_loop fuel (water_cannon_round (sara_flex g).1).1

def candidateFuel : Nat := 730

/-- `Puzzle::assign_candidates`. -/
def assign_candidates (g : Grid) : Grid := reduce_loop candidateFuel (initial_candidates g)

/-! The consolidation engine (`Puzzle::consolidate_candidates`). -/

def count_candidates_in_block_for (g : Grid) (b : Fin 9) (needle : Nat) : Nat :=
  (block_as_slice g b).foldl (fun acc cell =>
    match cell.number with
    | some _ => acc
    | none => acc + cell.candidates.count needle) 0

def count_candidates_in_row (g : Grid) (r : Fin 9) (needle : Nat) : Nat :=
  (row g r).foldl (fun acc cell =>
    match cell.number with
    | some _ => acc
    | none => acc + cell.candidates.count needle) 0

def count_candidates_in_col (g : Grid) (c : Fin 9) (needle : Nat) : Nat :=
  (column g c).foldl (fun acc cell =>
    match cell.number with
    | some _ => acc
    | none => acc + cell.candidates.count needle) 0

/-- The block-major scan order of tier 1: blocks 0..8, local rows, local
columns. -/
def blockScanOrder : List (Fin 9 × Fin 3 × Fin 3) :=
  (List.finRange 9) ×ˢ ((List.finRange 3) ×ˢ (List.finRange 3))

/-- Tier 1 of `consolidate_candidates`: every cell whose candidate vector has
exactly one member is assigned that member.  Each iteration's test reads the
block snapshot taken before the block's own one-cell writes, which equals the
original grid at every cell the test visits, so the grid update is modelled
pointwise and the record list as the block-major scan. -/
def tier1_grid (g : Grid) : Grid := fun r c =>
  match candidates_as_vec (g r c) with
  | [v] => { g r c with number := some v, candidates := List.replicate 9 0 }
  | _ => g r c

def tier1_records (g : Grid) : List Consolidation :=
  blockScanOrder.filterMap (fun q =>
    match candidates_as_vec (blockCell g q.1 q.2.1 q.2.2) with
    | [v] => some (Consolidation.SingleCandidateForCell (v, q.1.val, q.2.1.val, q.2.2.val))
    | _ => none)

/-- Tier 2: the first `(block, local row, local col, candidate)` hit, scanning
blocks then local positions then the cell's candidate vector in order, whose
candidate occurs exactly once among the unresolved cells of the block. -/
def tier2_hit (g : Grid) : Option (Fin 9 × Fin 3 × Fin 3 × Nat) :=
  (List.finRange 9).findSome? (fun b =>
    (List.finRange 3).findSome? (fun i =>
      (List.finRange 3).findSome? (fun j =>
        ((candidates_as_vec (blockCell g b i j)).find? (fun cand =>
          decide (count_candidates_in_block_for g b cand = 1))).map (fun cand => (b, i, j, cand)))))

/-- Tier 3: rows 0..8, then columns, then the cell's candidate vector. -/
def tier3_hit (g : Grid) : Option (Fin 9 × Fin 9 × Nat) :=
  (List.finRange 9).findSome? (fun r =>
    (List.finRange 9).findSome? (fun c =>
      ((candidates_as_vec (g r c)).find? (fun cand =>
        decide (count_candidates_in_row g r cand = 1))).map (fun cand => (r, c, cand))))

/-- Tier 4: columns 0..8, then rows, then the cell's candidate vector. -/
def tier4_hit (g : Grid) : Option (Fin 9 × Fin 9 × Nat) :=
  (List.finRange 9).findSome? (fun c =>
    (List.finRange 9).findSome? (fun r =>
      ((candidates_as_vec (g r c)).find? (fun cand =>
        decide (count_candidates_in_col g c cand = 1))).map (fun cand => (r, c, cand))))

/-- `Puzzle::consolidate_candidates`: tier 1 batched; if it produced nothing
(in which case it also changed nothing), the first hidden single in a block,
else in a row, else in a column, each assigned and returned alone; else no
progress. -/
def consolidate_candidates (g : Grid) : Grid × List Consolidation :=
  if (tier1_records g).length > 0 then (tier1_grid g, tier1_records g)
  else
    match tier2_hit (tier1_grid g) with
    | some q => (update_block (tier1_grid g) q.1 q.2.1 q.2.2.1 q.2.2.2,
        [Consolidation.OnlyOnePossibleCandidateForBlock (q.2.2.2, q.1.val, q.2.1.val, q.2.2.1.val)])
    | none =>
      match tier3_hit (tier1_grid g) with
      | some q => (set_number (tier1_grid g) q.1 q.2.1 q.2.2,
          [Consolidation.OnlyOnePossibleCandidateForRow
            (q.2.2, (block_num_for_row_col q.1 q.2.1).val, q.1.val, q.2.1.val)])
      | none =>
        match tier4_hit (tier1_grid g) with
        | some q => (set_number (tier1_grid g) q.1 q.2.1 q.2.2,
            [Consolidation.OnlyOnePossibleCandidateForColumn
              (q.2.2, (block_num_for_row_col q.1 q.2.1).val, q.1.val, q.2.1.val)])
        | none => (tier1_grid g, [])

/-! The search engine (`Puzzle::step`, `Puzzle::solve`, `solve_with_guesses`).
The debug snapshot writes are pure instrumentation and are omitted. -/

/-- `Puzzle::step`: propagate candidates to fixpoint, then consolidate once,
returning the new grid and the consolidation records. -/
def step (g : Grid) : Grid × List Consolidation :=
  consolidate_candidates (assign_candidates g)

/-- `Puzzle::solve`: repeat `step` until it reports no progress or the status
is `Solved` or `IllDefined`.  Fuel bounds the loop; each productive step
assigns at least one of the 81 cells, so `solveFuel` iterations suffice. -/
def solveLoop : Nat → Grid → Grid
  | 0, g => g
  | Nat.succ fuel, g =>
    if (step g).2.length = 0 then (step g).1
    else if status (step g).1 = PuzzleStatus.Solved then (step g).1
    else match status (step g).1 with
      | PuzzleStatus.IllDefined _ => (step g).1
      | _ => solveLoop fuel (step g).1

def solveFuel : Nat := 82

def solve (g : Grid) : Grid := solveLoop solveFuel g

attribute [irreducible] solve

/-- The guess list of `solve_with_guesses`: scanning row-major, the candidate
list of every cell overwrites the collected list when non-empty, so the result
is the full candidate list of the last cell with candidates. -/
def collect_guesses (g : Grid) : List Guess :=
  rowMajorPairs.foldl (fun acc p =>
    let silly := (candidates_as_vec (g p.1 p.2)).map (fun v => Guess.mk p.1 p.2 v)
    if silly.length > 0 then silly else acc) []

/-- Taking one guess: clone the grid, write the guessed number, clear the
cell's candidates. -/
def apply_guess (g : Grid) (guess : Guess) : Grid :=
  let cell := g guess.row guess.column
  gridSet g guess.row guess.column
    { cell with number := some guess.number, candidates := List.replicate 9 0 }

/-- The guess loop body of `solve_with_guesses`: try each guess in turn (the
caller passes the reversed list), solving the trial; `Solved` is returned at
once, `IllDefined` discards the branch, `Unsolved` recurses through `recur`. -/
def tryGuessList (recur : Grid → Option Grid) (given : Grid) : List Guess → Option Grid
  | [] => none
  | guess :: rest =>
    match (match status (solve (apply_guess given guess)) with
      | PuzzleStatus.Solved => some (solve (apply_guess given guess))
      | PuzzleStatus.IllDefined _ => none
      | PuzzleStatus.Unsolved => recur (solve (apply_guess given guess))) with
    | some p => some p
    | none => tryGuessList recur given rest

/-- `solve_with_guesses`, with fuel bounding the recursion depth (the Rust
recursion is bounded only by the shrinking set of unresolved cells). -/
def solve_with_guesses : Nat → Grid → Option Grid
  | 0, _ => none
  | Nat.succ fuel, given =>
    tryGuessList (solve_with_guesses fuel) given (collect_guesses given).reverse

/-- A naked single: an unresolved cell whose candidate vector is exactly
`[v]`. -/
def nakedSingle (g : Grid) (r c : Fin 9) (v : Nat) : Prop :=
  (g r c).number = none ∧ candidates_as_vec (g r c) = [v]

/-- Modelled from the spec: the first hidden single in a block, scanning
blocks 0..8, then local rows, local columns, then candidate values 1..9
ascending — the first unresolved cell/candidate pair whose candidate occurs in
exactly one unresolved cell of its block. -/
def hidden_block_first (g : Grid) : Option (Fin 9 × Fin 3 × Fin 3 × Nat) :=
  ((List.finRange 9) ×ˢ ((List.finRange 3) ×ˢ ((List.finRange 3) ×ˢ (List.range' 1 9)))).find?
    (fun q => decide ((blockCell g q.1 q.2.1 q.2.2.1).number = none ∧
      q.2.2.2 ∈ candidates_as_vec (blockCell g q.1 q.2.1 q.2.2.1) ∧
      count_candidates_in_block_for g q.1 q.2.2.2 = 1))

/-- Modelled from the spec: the first hidden single in a row, scanning grid
rows 0..8, then columns 0..8, then candidate values ascending. -/
def hidden_row_first (g : Grid) : Option (Fin 9 × Fin 9 × Nat) :=
  ((List.finRange 9) ×ˢ ((List.finRange 9) ×ˢ (List.range' 1 9))).find?
    (fun q => decide ((g q.1 q.2.1).number = none ∧
      q.2.2 ∈ candidates_as_vec (g q.1 q.2.1) ∧
      count_candidates_in_row g q.1 q.2.2 = 1))

/-- Modelled from the spec: the first hidden single in a column, scanning grid
columns 0..8, then rows 0..8, then candidate values ascending; the element is
`(column, row, value)`. -/
def hidden_col_first (g : Grid) : Option (Fin 9 × Fin 9 × Nat) :=
  ((List.finRange 9) ×ˢ ((List.finRange 9) ×ˢ (List.range' 1 9))).find?
    (fun q => decide ((g q.2.1 q.1).number = none ∧
      q.2.2 ∈ candidates_as_vec (g q.2.1 q.1) ∧
      count_candidates_in_col g q.1 q.2.2 = 1))

/-- Modelled from the spec: what one `consolidate` call does when no naked
single exists — the first hidden single in a block, else in a row, else in a
column, assigned and returned alone; else no progress and an unchanged grid. -/
def hiddenSpecResult (g : Grid) : Grid × List Consolidation :=
  match hidden_block_first g with
  | some q => (update_block g q.1 q.2.1 q.2.2.1 q.2.2.2,
      [Consolidation.OnlyOnePossibleCandidateForBlock (q.2.2.2, q.1.val, q.2.1.val, q.2.2.1.val)])
  | none =>
  match hidden_row_first g with
  | some q => (set_number g q.1 q.2.1 q.2.2,
      [Consolidation.OnlyOnePossibleCandidateForRow
        (q.2.2, (block_num_for_row_col q.1 q.2.1).val, q.1.val, q.2.1.val)])
  | none =>
  match hidden_col_first g with
  | some q => (set_number g q.2.1 q.1 q.2.2,
      [Consolidation.OnlyOnePossibleCandidateForColumn
        (q.2.2, (block_num_for_row_col q.2.1 q.1).val, q.2.1.val, q.1.val)])
  | none => (g, [])

/-! Well-formedness of candidate data.  Every candidate array the program
writes is a sorted duplicate-free vector of digits 1..9 padded with zeros, and
a valued cell's array is all zeros; `CellOK` records the consequences the
claims rely on. -/

/-- Executable strict-ascending check for candidate vectors. -/
def strictSorted : List Nat → Bool
  | [] => true
  | [_] => true
  | a :: b :: rest => decide (a < b) && strictSorted (b :: rest)

def CellOK (c : Cell) : Prop :=
  strictSorted (candidates_as_vec c) = true ∧
  (∀ x ∈ candidates_as_vec c, x ≤ 9) ∧
  (c.number ≠ none → c.candidates = List.replicate 9 0)

def GridOK (g : Grid) : Prop := ∀ r c, CellOK (g r c)

instance (c : Cell) : Decidable (CellOK c) :=
  inferInstanceAs (Decidable (strictSorted (candidates_as_vec c) = true ∧
    (∀ x ∈ candidates_as_vec c, x ≤ 9) ∧
    (c.number ≠ none → c.candidates = List.replicate 9 0)))

instance (g : Grid) : Decidable (GridOK g) :=
  inferInstanceAs (Decidable (∀ r c, CellOK (g r c)))

/-- The data-model invariant of the spec: a cell with an assigned value has an
empty candidate set (the all-zero array). -/
def ValuedEmpty (g : Grid) : Prop :=
  ∀ r c, (g r c).number ≠ none → (g r c).candidates = List.replicate 9 0

instance (g : Grid) : Decidable (ValuedEmpty g) :=
  inferInstanceAs (Decidable
    (∀ r c, (g r c).number ≠ none → (g r c).candidates = List.replicate 9 0))

/-- A concrete grid exercising the water cannon: in block 0 the digit 5 is a
candidate of exactly the two top-left cells, which share local row 0. -/
def cannonWitnessGrid : Grid := fun r c =>
  if r = 0 ∧ c = 0 then ⟨none, false, [5,7,0,0,0,0,0,0,0]⟩
  else if r = 0 ∧ c = 1 then ⟨none, false, [5,8,0,0,0,0,0,0,0]⟩
  else if r = 0 ∧ c = 4 then ⟨none, false, [5,6,0,0,0,0,0,0,0]⟩
  else blankCell

/-! Generic list lemmas relating the embedded early-return scans to
first-match specifications. -/

theorem findSome?_if_eq_find?_map {α β : Type} (p : α → Bool) (f : α → β) :
    ∀ l : List α,
      (l.findSome? (fun x => if p x then some (f x) else none)) = (l.find? p).map f
  | [] => rfl
  | a :: l => by
    rw [List.findSome?_cons, List.find?_cons]
    cases h : p a
    · simp only [h, if_neg Bool.false_ne_true]
      exact findSome?_if_eq_find?_map p f l
    · simp [h]

theorem head?_filterMap_if {α β : Type} (p : α → Bool) (f : α → β) :
    ∀ l : List α,
      (l.filterMap (fun x => if p x then some (f x) else none)).head? = (l.find? p).map f
  | [] => rfl
  | a :: l => by
    rw [List.filterMap_cons, List.find?_cons]
    cases h : p a
    · simp only [h, if_neg Bool.false_ne_true]
      exact head?_filterMap_if p f l
    · simp [h]

theorem findSome?_find?_sprod {α β γ : Type} (q : α → β → Bool) (G : α → β → γ) :
    ∀ (l : List α) (m : List β),
      l.findSome? (fun a => ((m.find? (q a)).map (G a))) =
        ((l ×ˢ m).find? (fun p => q p.1 p.2)).map (fun p => G p.1 p.2)
  | [], _ => by simp [List.nil_product]
  | a :: l, m => by
    rw [List.findSome?_cons, List.product_cons, List.find?_append, List.find?_map]
    cases h : m.find? (fun b => q a b)
    · have hc : (List.find? ((fun p => q p.1 p.2) ∘ fun b => (a, b)) m) = none := h
      rw [hc]
      simpa using findSome?_find?_sprod q G l m
    · have hc : (List.find? ((fun p => q p.1 p.2) ∘ fun b => (a, b)) m) = some _ := h
      rw [hc]
      simp

/-- Both duplicate-style scans in `status` are nested early returns; this
rewrites one of them into the corresponding first-match over the product
scan order. -/
theorem nested_scan_eq_product_find {α β γ : Type} (q : α → β → Bool) (G : α → β → γ)
    (l : List α) (m : List β) :
    l.findSome? (fun a => m.findSome? (fun b => if q a b then some (G a b) else none)) =
      ((l ×ˢ m).find? (fun p => q p.1 p.2)).map (fun p => G p.1 p.2) := by
  have h1 : ∀ a, m.findSome? (fun b => if q a b then some (G a b) else none) =
      (m.find? (q a)).map (G a) := fun a => findSome?_if_eq_find?_map (q a) (G a) m
  calc l.findSome? (fun a => m.findSome? (fun b => if q a b then some (G a b) else none))
      = l.findSome? (fun a => (m.find? (q a)).map (G a)) :=
        congrArg (fun f => l.findSome? f) (funext h1)
    _ = ((l ×ˢ m).find? (fun p => q p.1 p.2)).map (fun p => G p.1 p.2) :=
        findSome?_find?_sprod q G l m

/-! C1: the status classifier returns the first match in the fixed stage
order. -/

theorem stage1_head (g : Grid) :
    (rowMajorPairs.filterMap (fun p =>
      if decide ((g p.1 p.2).number = none ∧ candidates_as_vec (g p.1 p.2) = []) then
        some (PuzzleStatus.IllDefined (IllDefinedReason.NoPossibleSolution p.1.val p.2.val))
      else none)).head? =
    (firstEmptyCell g).map (fun p =>
      PuzzleStatus.IllDefined (IllDefinedReason.NoPossibleSolution p.1.val p.2.val)) :=
  head?_filterMap_if _ _ rowMajorPairs

theorem stage2_scan (g : Grid) :
    (List.finRange 9).findSome? (fun i => (List.range' 1 9).findSome? (fun needle =>
      if decide (1 < count_number_in_row g i needle) then
        some (PuzzleStatus.IllDefined (IllDefinedReason.NumberRepeatsInRow needle i.val))
      else none)) =
    (firstRowRepeat g).map (fun p =>
      PuzzleStatus.IllDefined (IllDefinedReason.NumberRepeatsInRow p.2 p.1.val)) :=
  nested_scan_eq_product_find _ _ _ _

theorem stage3_scan (g : Grid) :
    (List.finRange 9).findSome? (fun i => (List.range' 1 9).findSome? (fun needle =>
      if decide (1 < count_number_in_column g i needle) then
        some (PuzzleStatus.IllDefined (IllDefinedReason.NumberRepeatsInColumn needle i.val))
      else none)) =
    (firstColumnRepeat g).map (fun p =>
      PuzzleStatus.IllDefined (IllDefinedReason.NumberRepeatsInColumn p.2 p.1.val)) :=
  nested_scan_eq_product_find _ _ _ _

theorem stage4_scan (g : Grid) :
    (List.finRange 9).findSome? (fun b => (List.range' 1 9).findSome? (fun needle =>
      if decide (1 < count_number_in_block g b needle) then
        some (PuzzleStatus.IllDefined (IllDefinedReason.NumberRepeatsInBlock needle b.val))
      else none)) =
    (firstBlockRepeat g).map (fun p =>
      PuzzleStatus.IllDefined (IllDefinedReason.NumberRepeatsInBlock p.2 p.1.val)) :=
  nested_scan_eq_product_find _ _ _ _

theorem stage5_all (g : Grid) :
    (rowMajorPairs.all (fun p => (g p.1 p.2).number.isSome)) =
      decide (∀ r c : Fin 9, (g r c).number ≠ none) := by
  rw [Bool.eq_iff_iff, List.all_eq_true, decide_eq_true_iff]
  constructor
  · intro h r c
    have := h (r, c) (by
      rw [rowMajorPairs, List.mem_product]
      exact ⟨List.mem_finRange r, List.mem_finRange c⟩)
    simpa [Option.isSome_iff_ne_none] using this
  · intro h p hp
    simpa [Option.isSome_iff_ne_none] using h p.1 p.2

/-- C1. For every grid, `status` is exactly the first-match classifier the
spec describes: first the row-major scan for an unresolved cell with empty
candidates, then row duplicates, then column duplicates, then block
duplicates (each a full scan in rows-then-values order), then Solved iff
every cell is assigned, else Unsolved.  In particular a row duplicate is
reported even when column or block violations also exist. -/
theorem status_eq_spec (g : Grid) : status g = statusSpec g := by
  unfold status statusSpec
  rw [stage1_head g, stage2_scan g, stage3_scan g, stage4_scan g, stage5_all g]
  cases firstEmptyCell g with
  | some p => rfl
  | none =>
    cases firstRowRepeat g with
    | some p => rfl
    | none =>
      cases firstColumnRepeat g with
      | some p => rfl
      | none =>
        cases firstBlockRepeat g with
        | some p => rfl
        | none => rfl

/-- C1. For every grid, `status` is exactly the first-match classifier the
spec describes: first the row-major scan for an unresolved cell with empty
candidates, then row duplicates, then column duplicates, then block
duplicates (each a full scan in rows-then-values order), then Solved iff
every cell is assigned, else Unsolved.  In particular a row duplicate is
reported even when column or block violations also exist, because the
row-repeat stage of `statusSpec` is consulted before the column and block
stages. -/
theorem status_matches_spec (g : Grid) : status g = statusSpec g :=
  status_eq_spec g

/-! C10: a freshly parsed puzzle with a blank cell classifies as
`NoPossibleSolution` at the first blank cell, never as `Unsolved`. -/

theorem writeDigit_candidates_rep0 (g : Grid) (i : Fin 9) (j : Nat) (ch : Char)
    (h : ∀ r c, (g r c).candidates = List.replicate 9 0) :
    ∀ r c, ((writeDigit g i j ch) r c).candidates = List.replicate 9 0 := by
  intro r c
  unfold writeDigit
  cases hd : charToDigit10 ch with
  | none => exact h r c
  | some d =>
    show (((if h : j < 9 then gridSet g i ⟨j, h⟩ (givenCell d) else g)) r c).candidates =
      List.replicate 9 0
    by_cases hj : j < 9
    · rw [dif_pos hj]
      unfold gridSet
      by_cases hrc : r = i ∧ c = ⟨j, hj⟩
      · rw [if_pos hrc]; rfl
      · rw [if_neg hrc]; exact h r c
    · rw [dif_neg hj]; exact h r c

theorem processLine_candidates_rep0 (i : Fin 9) :
    ∀ (cs : List Char) (g : Grid) (j : Nat),
      (∀ r c, (g r c).candidates = List.replicate 9 0) →
      ∀ r c, ((processLine i g j cs) r c).candidates = List.replicate 9 0
  | [], _, _, h, r, c => h r c
  | ch :: rest, g, j, h, r, c => by
    unfold processLine
    exact processLine_candidates_rep0 i rest _ (j + 1)
      (writeDigit_candidates_rep0 g i j ch h) r c

theorem processOneLine_candidates_rep0 (g : Grid) (i : Nat) (line : List Char)
    (h : ∀ r c, (g r c).candidates = List.replicate 9 0) :
    ∀ r c, ((processOneLine g i line) r c).candidates = List.replicate 9 0 := by
  intro r c
  unfold processOneLine
  by_cases ht : (trimChars line).length = 0
  · rw [if_pos ht]; exact h r c
  · rw [if_neg ht]
    by_cases hi : i < 9
    · rw [dif_pos hi]
      exact processLine_candidates_rep0 ⟨i, hi⟩ (trimChars line) g 0 h r c
    · rw [dif_neg hi]; exact h r c

theorem processLines_candidates_rep0 :
    ∀ (lines : List (List Char)) (g : Grid) (i : Nat),
      (∀ r c, (g r c).candidates = List.replicate 9 0) →
      ∀ r c, ((processLines g i lines) r c).candidates = List.replicate 9 0
  | [], _, _, h, r, c => h r c
  | line :: rest, g, i, h, r, c => by
    unfold processLines
    exact processLines_candidates_rep0 rest _ (i + 1)
      (processOneLine_candidates_rep0 g i line h) r c

/-- Every cell of a freshly parsed grid has the all-zero candidate array
(blank cells and given cells alike). -/
theorem parse_candidates_rep0 (input : List Char) (r c : Fin 9) :
    ((parse input) r c).candidates = List.replicate 9 0 :=
  processLines_candidates_rep0 _ _ 0 (fun _ _ => rfl) r c

/-- C10. For a freshly parsed grid, before any candidate assignment has run,
`status` reports `NoPossibleSolution` at the first row-major cell without a
number — never `Unsolved` — because blank cells carry empty candidate sets. -/
theorem status_fresh_parse_no_possible_solution (input : List Char) (r c : Fin 9)
    (h : rowMajorPairs.find? (fun p => decide ((parse input p.1 p.2).number = none)) =
      some (r, c)) :
    status (parse input) =
      PuzzleStatus.IllDefined (IllDefinedReason.NoPossibleSolution r.val c.val) := by
  rw [status_eq_spec]
  have hpred : (fun p : Fin 9 × Fin 9 =>
      decide (((parse input) p.1 p.2).number = none ∧
        candidates_as_vec ((parse input) p.1 p.2) = [])) =
      (fun p : Fin 9 × Fin 9 => decide (((parse input) p.1 p.2).number = none)) := by
    funext p
    have hc : candidates_as_vec ((parse input) p.1 p.2) = [] := by
      rw [candidates_as_vec, parse_candidates_rep0]
      decide
    simp [hc]
  have hfe : firstEmptyCell (parse input) = some (r, c) := by
    rw [firstEmptyCell, hpred]
    exact h
  unfold statusSpec
  rw [hfe]

/-- C10 witness at the input consisting of the single character 1: the first
blank cell is (0, 1). -/
theorem status_fresh_parse_no_possible_solution_witness :
    rowMajorPairs.find?
        (fun p => decide (((parse [Char.ofNat 49]) p.1 p.2).number = none)) =
        some ((0 : Fin 9), (1 : Fin 9)) ∧
      status (parse [Char.ofNat 49]) =
        PuzzleStatus.IllDefined (IllDefinedReason.NoPossibleSolution 0 1) :=
  ⟨by decide, status_fresh_parse_no_possible_solution [Char.ofNat 49] 0 1 (by decide)⟩

/-! C2: the pinned-subset elimination.  The code pins a candidate vector only
when it occurs more than once (`count > 1 && count == candidate.len()`), so a
singleton occurring exactly once — which the claim's wording covers — is not
pinned and its member is not removed from the other cells; the claim holds
once the occurrence count is required to be at least two. -/

/-- C2 counterexample.  In the group `[5],[5,6],[],...,[]` the non-empty set
`[5]` occurs in exactly as many cells (one) as its cardinality, and cell 1 is
a different cell, yet 5 survives in cell 1's reduced set: the pass does not
remove members of a once-occurring singleton. -/
theorem reduce_uniqueness_lone_singleton_cex :
    ([5] : List Nat) ≠ [] ∧
    ([[5],[5,6],[],[],[],[],[],[],[]] : List (List Nat)).count [5] = ([5] : List Nat).length ∧
    ([5] : List Nat) ≠ ([[5],[5,6],[],[],[],[],[],[],[]] : List (List Nat)).getD 1 [] ∧
    5 ∈ (reduce_candidates_by_uniqueness [[5],[5,6],[],[],[],[],[],[],[]]).getD 1 [] := by
  decide

theorem getD_reduce (cs : List (List Nat)) (i : Nat) (hi : i < 9) :
    (reduce_candidates_by_uniqueness cs).getD i [] =
      List.insertionSort (· ≤ ·)
        (((cs.getD i []).filter (fun x =>
          decide (∀ p ∈ pinnedSets cs, p = cs.getD i [] ∨ x ∉ p))).dedup) := by
  unfold reduce_candidates_by_uniqueness
  rw [List.getD_eq_getElem?_getD, List.getElem?_map, List.getElem?_range hi]
  rfl

/-- C2 as amended.  For any nine candidate vectors, a member `x` survives in
cell `i` exactly when no set pinned by the code — occurring at least twice and
in exactly as many cells as its cardinality — other than cell `i`'s own vector
contains it; in particular the members of a pinned set are removed from every
other cell and never from the pinned cells themselves.  The spec's pinned-pair
example reduces exactly as stated. -/
theorem reduce_uniqueness_pinned_spec :
    (∀ (cs : List (List Nat)), cs.length = 9 →
      ∀ (i : Nat), i < 9 → ∀ (x : Nat),
        (x ∈ (reduce_candidates_by_uniqueness cs).getD i [] ↔
          x ∈ cs.getD i [] ∧
            ∀ p ∈ cs, p ≠ [] → 2 ≤ cs.count p → cs.count p = p.length →
              p ≠ cs.getD i [] → x ∉ p)) ∧
    reduce_candidates_by_uniqueness pinnedPairExample =
      [[2,7],[2,7],[1],[3],[9],[4],[6],[5,8],[5,8]] := by
  constructor
  · intro cs _ i hi x
    rw [getD_reduce cs i hi,
      (List.perm_insertionSort (· ≤ ·) _).mem_iff, List.mem_dedup, List.mem_filter,
      decide_eq_true_iff]
    constructor
    · rintro ⟨hmem, hkeep⟩
      refine ⟨hmem, ?_⟩
      intro p hp _ hcount hlen hne
      have hpin : p ∈ pinnedSets cs := by
        rw [pinnedSets, List.mem_filter, List.mem_dedup, decide_eq_true_iff]
        exact ⟨hp, by omega, hlen⟩
      rcases hkeep p hpin with h | h
      · exact absurd h hne
      · exact h
    · rintro ⟨hmem, hkeep⟩
      refine ⟨hmem, ?_⟩
      intro p hpin
      rw [pinnedSets, List.mem_filter, List.mem_dedup, decide_eq_true_iff] at hpin
      obtain ⟨hp, hgt, hlen⟩ := hpin
      by_cases hne : p = cs.getD i []
      · exact Or.inl hne
      · refine Or.inr (hkeep p hp ?_ (by omega) hlen hne)
        intro hnil
        rw [hnil] at hlen hgt
        simp at hlen
        omega
  · decide

/-- C2 witness: the amended characterization applied to the spec's pinned-pair
example, at cell 1 and member 5 (the pinned pair `[5,8]` removes 5 there). -/
theorem reduce_uniqueness_pinned_spec_witness :
    pinnedPairExample.length = 9 ∧
    (5 ∈ (reduce_candidates_by_uniqueness pinnedPairExample).getD 1 [] ↔
      5 ∈ pinnedPairExample.getD 1 [] ∧
        ∀ p ∈ pinnedPairExample, p ≠ [] → 2 ≤ pinnedPairExample.count p →
          pinnedPairExample.count p = p.length →
          p ≠ pinnedPairExample.getD 1 [] → 5 ∉ p) :=
  ⟨by decide, reduce_uniqueness_pinned_spec.1 pinnedPairExample (by decide) 1 (by decide) 5⟩

/-! C5: the guess search only ever returns solved grids. -/

theorem tryGuessList_cons_solved (recur : Grid → Option Grid) (given : Grid)
    (guess : Guess) (rest : List Guess)
    (hst : status (solve (apply_guess given guess)) = PuzzleStatus.Solved) :
    tryGuessList recur given (guess :: rest) = some (solve (apply_guess given guess)) := by
  rw [tryGuessList, hst]

theorem tryGuessList_cons_ill (recur : Grid → Option Grid) (given : Grid)
    (guess : Guess) (rest : List Guess) (reason : IllDefinedReason)
    (hst : status (solve (apply_guess given guess)) = PuzzleStatus.IllDefined reason) :
    tryGuessList recur given (guess :: rest) = tryGuessList recur given rest := by
  rw [tryGuessList, hst]

theorem tryGuessList_cons_unsolved (recur : Grid → Option Grid) (given : Grid)
    (guess : Guess) (rest : List Guess)
    (hst : status (solve (apply_guess given guess)) = PuzzleStatus.Unsolved) :
    tryGuessList recur given (guess :: rest) =
      (recur (solve (apply_guess given guess))).elim (tryGuessList recur given rest) some := by
  rw [tryGuessList, hst]
  rcases hr : recur (solve (apply_guess given guess)) with _ | p <;> rfl

theorem tryGuessList_solved (recur : Grid → Option Grid)
    (hrec : ∀ g s, recur g = some s → status s = PuzzleStatus.Solved) (given : Grid) :
    ∀ (l : List Guess) (s : Grid),
      tryGuessList recur given l = some s → status s = PuzzleStatus.Solved
  | [], s, h => by simp [tryGuessList] at h
  | guess :: rest, s, h => by
    rcases hst : status (solve (apply_guess given guess)) with _ | _ | reason
    · rw [tryGuessList_cons_solved recur given guess rest hst] at h
      cases h
      exact hst
    · rw [tryGuessList_cons_unsolved recur given guess rest hst] at h
      cases hr : recur (solve (apply_guess given guess)) with
      | some p =>
        rw [hr] at h
        cases h
        exact hrec _ _ hr
      | none =>
        rw [hr] at h
        exact tryGuessList_solved recur hrec given rest s h
    · rw [tryGuessList_cons_ill recur given guess rest reason hst] at h
      exact tryGuessList_solved recur hrec given rest s h

/-- C5. Whatever grid and fuel it is started from, `solve_with_guesses` either
returns a grid whose status is `Solved` or returns no result: a branch whose
trial solves is returned only after its status is checked to be `Solved`, an
`IllDefined` branch is discarded, and an `Unsolved` branch can only pass along
a recursive result, so no returned grid is ever `Unsolved` or `IllDefined`. -/
theorem solve_with_guesses_solved_or_none (fuel : Nat) (g : Grid) :
    Option.elim (solve_with_guesses fuel g) True
      (fun s => status s = PuzzleStatus.Solved) := by
  induction fuel generalizing g with
  | zero => simp [solve_with_guesses]
  | succ fuel ih =>
    rw [solve_with_guesses]
    cases hres : tryGuessList (solve_with_guesses fuel) g (collect_guesses g).reverse with
    | none => simp
    | some s =>
      have : status s = PuzzleStatus.Solved := by
        refine tryGuessList_solved (solve_with_guesses fuel) ?_ g _ s hres
        intro g2 s2 h2
        have := ih g2
        rw [h2] at this
        exact this
      simpa using this

/-! C3: the locked-candidate (water cannon) elimination, one `(block, digit)`
step at a time, exactly as the spec describes a single block/digit case. -/

theorem filter_pos_replicate_zero (k : Nat) :
    (List.replicate k 0).filter (fun x => decide (0 < x)) = [] := by
  simp [List.filter_replicate]

theorem strictSorted_iff_chain' : ∀ l : List Nat,
    strictSorted l = true ↔ List.Chain' (· < ·) l
  | [] => by simp [strictSorted]
  | [a] => by simp [strictSorted]
  | a :: b :: rest => by
    rw [strictSorted, Bool.and_eq_true, decide_eq_true_iff,
      strictSorted_iff_chain' (b :: rest), List.chain'_cons]

theorem vec_nodup_of_cellOK {c : Cell} (h : CellOK c) : (candidates_as_vec c).Nodup :=
  ((List.chain'_iff_pairwise).mp ((strictSorted_iff_chain' _).mp h.1)).imp
    (fun hab => Nat.ne_of_lt hab)

/-- After `remove_candidate`, the removed digit is gone from the candidate
vector, provided the vector held no duplicates. -/
theorem remove_candidate_not_mem (c : Cell) (d : Nat)
    (hnd : (candidates_as_vec c).Nodup) :
    d ∉ candidates_as_vec (remove_candidate c d).1 := by
  unfold remove_candidate
  by_cases hm : d ∈ candidates_as_vec c
  · rw [if_pos hm]
    intro hmem
    rw [candidates_as_vec, set_candidates] at hmem
    simp only [padTo9, List.filter_append, List.mem_append, filter_pos_replicate_zero,
      List.not_mem_nil, or_false] at hmem
    rcases List.mem_filter.mp hmem with ⟨hsorted, _⟩
    have : d ∈ (candidates_as_vec c).erase d :=
      (List.perm_insertionSort (· ≤ ·) _).mem_iff.mp hsorted
    rcases (hnd.mem_erase_iff).mp this with ⟨hne, _⟩
    exact hne rfl
  · rw [if_neg hm]
    exact hm

theorem sights_nodup (block : Fin 3 → Fin 3 → Cell) (d : Nat) :
    (cannon_sights block d).Nodup :=
  List.Nodup.filter _ ((List.nodup_finRange 3).product (List.nodup_finRange 3))

theorem line_up_row_case (block : Fin 3 → Fin 3 → Cell) (d : Nat) (r : Fin 3)
    (hlen : (cannon_sights block d).length = 2 ∨ (cannon_sights block d).length = 3)
    (hrow : ∀ p ∈ cannon_sights block d, p.1 = r) :
    line_up_water_cannon block d = WaterCannonSights.Row r := by
  unfold line_up_water_cannon
  rw [if_neg (by omega)]
  cases hS : cannon_sights block d with
  | nil => rw [hS] at hlen; simp at hlen
  | cons s0 rest =>
    rw [hS] at hrow
    show (if (rest.all fun s => decide (s.1 = s0.1)) = true then WaterCannonSights.Row s0.1
      else if (rest.all fun s => decide (s.2 = s0.2)) = true then WaterCannonSights.Column s0.2
      else WaterCannonSights.None) = WaterCannonSights.Row r
    have hall : rest.all (fun s => decide (s.1 = s0.1)) = true := by
      rw [List.all_eq_true]
      intro s hs
      rw [decide_eq_true_iff, hrow s (List.mem_cons_of_mem s0 hs),
        hrow s0 (List.mem_cons_self s0 rest)]
    rw [if_pos hall, hrow s0 (List.mem_cons_self s0 rest)]

theorem line_up_column_case (block : Fin 3 → Fin 3 → Cell) (d : Nat) (c : Fin 3)
    (hlen : (cannon_sights block d).length = 2 ∨ (cannon_sights block d).length = 3)
    (hcol : ∀ p ∈ cannon_sights block d, p.2 = c) :
    line_up_water_cannon block d = WaterCannonSights.Column c := by
  unfold line_up_water_cannon
  rw [if_neg (by omega)]
  have hnd := sights_nodup block d
  cases hS : cannon_sights block d with
  | nil => rw [hS] at hlen; simp at hlen
  | cons s0 rest =>
    rw [hS] at hcol hnd
    show (if (rest.all fun s => decide (s.1 = s0.1)) = true then WaterCannonSights.Row s0.1
      else if (rest.all fun s => decide (s.2 = s0.2)) = true then WaterCannonSights.Column s0.2
      else WaterCannonSights.None) = WaterCannonSights.Column c
    cases hR : rest with
    | nil =>
      rw [hS, hR] at hlen
      simp at hlen
    | cons s1 rest2 =>
      subst hR
      have hs1mem : s1 ∈ s0 :: s1 :: rest2 :=
        List.mem_cons_of_mem s0 (List.mem_cons_self s1 rest2)
      have hne : s1 ≠ s0 := by
        intro heq
        rcases List.nodup_cons.mp hnd with ⟨hnotmem, _⟩
        rw [← heq] at hnotmem
        exact hnotmem (List.mem_cons_self s1 rest2)
      have hrowdiff : s1.1 ≠ s0.1 := by
        intro heq1
        refine hne (Prod.ext heq1 ?_)
        rw [hcol s1 hs1mem, hcol s0 (List.mem_cons_self s0 (s1 :: rest2))]
      have hallrow : ((s1 :: rest2).all (fun s => decide (s.1 = s0.1))) = false := by
        apply Bool.eq_false_iff.mpr
        intro hall
        exact hrowdiff (decide_eq_true_iff.mp
          (List.all_eq_true.mp hall s1 (List.mem_cons_self s1 rest2)))
      rw [if_neg (by rw [hallrow]; exact Bool.false_ne_true)]
      have hallcol : (s1 :: rest2).all (fun s => decide (s.2 = s0.2)) = true := by
        rw [List.all_eq_true]
        intro s hs
        rw [decide_eq_true_iff, hcol s (List.mem_cons_of_mem s0 hs),
          hcol s0 (List.mem_cons_self s0 (s1 :: rest2))]
      rw [if_pos hallcol, hcol s0 (List.mem_cons_self s0 (s1 :: rest2))]

theorem line_up_none_case (block : Fin 3 → Fin 3 → Cell) (d : Nat)
    (h : ¬(((cannon_sights block d).length = 2 ∨ (cannon_sights block d).length = 3) ∧
      ((∃ r, ∀ p ∈ cannon_sights block d, p.1 = r) ∨
       (∃ c, ∀ p ∈ cannon_sights block d, p.2 = c)))) :
    line_up_water_cannon block d = WaterCannonSights.None := by
  unfold line_up_water_cannon
  by_cases hlen : (cannon_sights block d).length = 2 ∨ (cannon_sights block d).length = 3
  · rw [if_neg (by omega)]
    have hna : ¬((∃ r, ∀ p ∈ cannon_sights block d, p.1 = r) ∨
        (∃ c, ∀ p ∈ cannon_sights block d, p.2 = c)) := fun hc => h ⟨hlen, hc⟩
    cases hS : cannon_sights block d with
    | nil => rfl
    | cons s0 rest =>
      rw [hS] at hna
      show (if (rest.all fun s => decide (s.1 = s0.1)) = true then WaterCannonSights.Row s0.1
        else if (rest.all fun s => decide (s.2 = s0.2)) = true then
          WaterCannonSights.Column s0.2
        else WaterCannonSights.None) = WaterCannonSights.None
      have hallrow : (rest.all (fun s => decide (s.1 = s0.1))) = false := by
        apply Bool.eq_false_iff.mpr
        intro hall
        refine hna (Or.inl ⟨s0.1, ?_⟩)
        intro p hp
        rcases List.mem_cons.mp hp with hp0 | hpr
        · rw [hp0]
        · exact decide_eq_true_iff.mp (List.all_eq_true.mp hall p hpr)
      have hallcol : (rest.all (fun s => decide (s.2 = s0.2))) = false := by
        apply Bool.eq_false_iff.mpr
        intro hall
        refine hna (Or.inr ⟨s0.2, ?_⟩)
        intro p hp
        rcases List.mem_cons.mp hp with hp0 | hpr
        · rw [hp0]
        · exact decide_eq_true_iff.mp (List.all_eq_true.mp hall p hpr)
      rw [if_neg (by rw [hallrow]; exact Bool.false_ne_true)]
      rw [if_neg (by rw [hallcol]; exact Bool.false_ne_true)]
  · rw [if_pos (by omega)]

/-- C3.  For every grid, block `b` and digit `d`: when the block cells listing
`d` as a candidate number exactly 2 or 3 and share their local row `r`, the
water-cannon step removes `d` from every cell of that full grid row outside
the block and touches nothing else; symmetrically when they share a local
column; and for any other count or non-aligned geometry the step leaves the
grid unchanged.  The duplicate-free candidate vectors of a well-formed grid
make `remove_candidate` a true removal. -/
theorem water_cannon_step_spec (g : Grid) (b : Fin 9) (d : Nat) (hOK : GridOK g) :
    (∀ r : Fin 3,
      ((cannon_sights (fun i j => blockCell g b i j) d).length = 2 ∨
       (cannon_sights (fun i j => blockCell g b i j) d).length = 3) →
      (∀ p ∈ cannon_sights (fun i j => blockCell g b i j) d, p.1 = r) →
      (∀ y : Fin 9, y.val / 3 ≠ b.val % 3 →
        d ∉ candidates_as_vec ((water_cannon_step g b d).1 (blockRowIdx b r) y)) ∧
      (∀ x y : Fin 9, ¬(x = blockRowIdx b r ∧ y.val / 3 ≠ b.val % 3) →
        (water_cannon_step g b d).1 x y = g x y)) ∧
    (∀ c : Fin 3,
      ((cannon_sights (fun i j => blockCell g b i j) d).length = 2 ∨
       (cannon_sights (fun i j => blockCell g b i j) d).length = 3) →
      (∀ p ∈ cannon_sights (fun i j => blockCell g b i j) d, p.2 = c) →
      (∀ x : Fin 9, x.val / 3 ≠ b.val / 3 →
        d ∉ candidates_as_vec ((water_cannon_step g b d).1 x (blockColIdx b c))) ∧
      (∀ x y : Fin 9, ¬(y = blockColIdx b c ∧ x.val / 3 ≠ b.val / 3) →
        (water_cannon_step g b d).1 x y = g x y)) ∧
    (¬(((cannon_sights (fun i j => blockCell g b i j) d).length = 2 ∨
        (cannon_sights (fun i j => blockCell g b i j) d).length = 3) ∧
       ((∃ r, ∀ p ∈ cannon_sights (fun i j => blockCell g b i j) d, p.1 = r) ∨
        (∃ c, ∀ p ∈ cannon_sights (fun i j => blockCell g b i j) d, p.2 = c))) →
      (water_cannon_step g b d).1 = g) := by
  refine ⟨?_, ?_, ?_⟩
  · intro r hlen hrow
    have hl := line_up_row_case (fun i j => blockCell g b i j) d r hlen hrow
    have hstep : (water_cannon_step g b d).1 = fun x y =>
        if x = blockRowIdx b r ∧ y.val / 3 ≠ b.val % 3 then
          (remove_candidate (g x y) d).1 else g x y := by
      unfold water_cannon_step
      rw [hl]
    constructor
    · intro y hy
      simp only [hstep]
      rw [if_pos (And.intro trivial hy)]
      exact remove_candidate_not_mem _ d (vec_nodup_of_cellOK (hOK (blockRowIdx b r) y))
    · intro x y hxy
      simp only [hstep]
      rw [if_neg hxy]
  · intro c hlen hcol
    have hl := line_up_column_case (fun i j => blockCell g b i j) d c hlen hcol
    have hstep : (water_cannon_step g b d).1 = fun x y =>
        if y = blockColIdx b c ∧ x.val / 3 ≠ b.val / 3 then
          (remove_candidate (g x y) d).1 else g x y := by
      unfold water_cannon_step
      rw [hl]
    constructor
    · intro x hx
      simp only [hstep]
      rw [if_pos (And.intro trivial hx)]
      exact remove_candidate_not_mem _ d (vec_nodup_of_cellOK (hOK x (blockColIdx b c)))
    · intro x y hxy
      simp only [hstep]
      rw [if_neg hxy]
  · intro h
    have hl := line_up_none_case (fun i j => blockCell g b i j) d h
    unfold water_cannon_step
    rw [hl]

/-- C3 witness: in `cannonWitnessGrid`, block 0 sees digit 5 in exactly its
two top-left cells, aligned on local row 0, so the step clears 5 from the rest
of grid row 0. -/
theorem water_cannon_step_spec_witness :
    GridOK cannonWitnessGrid ∧
    (∀ y : Fin 9, y.val / 3 ≠ (0 : Fin 9).val % 3 →
      5 ∉ candidates_as_vec
        ((water_cannon_step cannonWitnessGrid 0 5).1 (blockRowIdx 0 0) y)) :=
  ⟨by decide, ((water_cannon_step_spec cannonWitnessGrid 0 5 (by decide)).1 0
    (by decide) (by decide)).1⟩

/-! C6 and C7: characterizing `parse` cell by cell.  `writeDigit` writes only
cell `(i, j)`; the character loop writes column `j` from character `j`; the
line loop writes row `i` from line `i` of the split — blank lines included in
the count. -/

theorem writeDigit_apply (g : Grid) (i : Fin 9) (j : Nat) (ch : Char) (r c : Fin 9) :
    (writeDigit g i j ch) r c =
      if r = i ∧ c.val = j then
        (match charToDigit10 ch with
         | some d => givenCell d
         | none => g r c)
      else g r c := by
  unfold writeDigit
  cases hd : charToDigit10 ch with
  | none =>
    by_cases h : r = i ∧ c.val = j
    · rw [if_pos h]
    · rw [if_neg h]
  | some d =>
    show (if h : j < 9 then gridSet g i ⟨j, h⟩ (givenCell d) else g) r c = _
    by_cases h : r = i ∧ c.val = j
    · have hj : j < 9 := by rw [← h.2]; exact c.isLt
      rw [if_pos h, dif_pos hj]
      unfold gridSet
      rw [if_pos ⟨h.1, Fin.ext h.2⟩]
    · rw [if_neg h]
      by_cases hj : j < 9
      · rw [dif_pos hj]
        unfold gridSet
        rw [if_neg (fun hc => h ⟨hc.1, by rw [hc.2]⟩)]
      · rw [dif_neg hj]

theorem charToDigit10_space : charToDigit10 ' ' = none := by decide

theorem processLine_apply (i : Fin 9) :
    ∀ (cs : List Char) (g : Grid) (j0 : Nat) (r c : Fin 9),
      (processLine i g j0 cs) r c =
        if r = i ∧ j0 ≤ c.val then
          (match charToDigit10 (cs.getD (c.val - j0) ' ') with
           | some d => givenCell d
           | none => g r c)
        else g r c
  | [], g, j0, r, c => by
    show g r c = _
    by_cases h : r = i ∧ j0 ≤ c.val
    · rw [if_pos h]
      have h0 : (([] : List Char).getD (c.val - j0) ' ') = ' ' := rfl
      rw [h0, charToDigit10_space]
    · rw [if_neg h]
  | ch :: rest, g, j0, r, c => by
    show (processLine i (writeDigit g i j0 ch) (j0 + 1) rest) r c = _
    rw [processLine_apply i rest (writeDigit g i j0 ch) (j0 + 1) r c]
    by_cases hri : r = i
    · subst hri
      by_cases h1 : j0 ≤ c.val
      · by_cases h2 : c.val = j0
        · rw [if_neg (fun hc => absurd hc.2 (by omega)), if_pos ⟨rfl, h1⟩]
          rw [writeDigit_apply g r j0 ch r c, if_pos ⟨rfl, h2⟩]
          have h3 : c.val - j0 = 0 := by omega
          rw [h3, List.getD_cons_zero]
        · rw [if_pos ⟨rfl, by omega⟩, if_pos ⟨rfl, h1⟩]
          have h3 : c.val - j0 = (c.val - (j0 + 1)) + 1 := by omega
          rw [h3, List.getD_cons_succ]
          rw [writeDigit_apply g r j0 ch r c, if_neg (fun hc => h2 hc.2)]
      · rw [if_neg (fun hc => absurd hc.2 (by omega)), if_neg (fun hc => absurd hc.2 (by omega))]
        rw [writeDigit_apply g r j0 ch r c, if_neg (fun hc => absurd hc.2 (by omega))]
    · rw [if_neg (fun hc => hri hc.1), if_neg (fun hc => hri hc.1)]
      rw [writeDigit_apply g i j0 ch r c, if_neg (fun hc => hri hc.1)]

theorem processOneLine_apply (g : Grid) (i : Nat) (line : List Char) (r c : Fin 9) :
    (processOneLine g i line) r c =
      if r.val = i then
        (match charToDigit10 ((trimChars line).getD c.val ' ') with
         | some d => givenCell d
         | none => g r c)
      else g r c := by
  unfold processOneLine
  by_cases hb : (trimChars line).length = 0
  · rw [if_pos hb]
    rw [List.length_eq_zero.mp hb]
    have h0 : (([] : List Char).getD c.val ' ') = ' ' := rfl
    by_cases h : r.val = i
    · rw [if_pos h, h0, charToDigit10_space]
    · rw [if_neg h]
  · rw [if_neg hb]
    by_cases hi : i < 9
    · rw [dif_pos hi, processLine_apply ⟨i, hi⟩ (trimChars line) g 0 r c]
      by_cases h : r.val = i
      · rw [if_pos ⟨Fin.ext h, Nat.zero_le c.val⟩, if_pos h, Nat.sub_zero]
      · rw [if_neg (fun hc => h (by rw [hc.1])), if_neg h]
    · rw [dif_neg hi, if_neg (by have := r.isLt; omega)]

theorem processLines_apply :
    ∀ (lines : List (List Char)) (g : Grid) (i0 : Nat) (r c : Fin 9),
      (processLines g i0 lines) r c =
        if i0 ≤ r.val then
          (match charToDigit10
              ((trimChars (lines.getD (r.val - i0) [])).getD c.val ' ') with
           | some d => givenCell d
           | none => g r c)
        else g r c
  | [], g, i0, r, c => by
    show g r c = _
    by_cases h : i0 ≤ r.val
    · rw [if_pos h]
      have h0 : (([] : List (List Char)).getD (r.val - i0) []) = [] := rfl
      have h1 : trimChars [] = [] := rfl
      rw [h0, h1]
      have h2 : (([] : List Char).getD c.val ' ') = ' ' := rfl
      rw [h2, charToDigit10_space]
    · rw [if_neg h]
  | line :: rest, g, i0, r, c => by
    show (processLines (processOneLine g i0 line) (i0 + 1) rest) r c = _
    rw [processLines_apply rest (processOneLine g i0 line) (i0 + 1) r c]
    by_cases h1 : i0 ≤ r.val
    · by_cases h2 : r.val = i0
      · rw [if_neg (by omega), if_pos h1]
        rw [processOneLine_apply g i0 line r c, if_pos h2]
        have h3 : r.val - i0 = 0 := by omega
        rw [h3, List.getD_cons_zero]
      · rw [if_pos (by omega), if_pos h1]
        have h3 : r.val - i0 = (r.val - (i0 + 1)) + 1 := by omega
        rw [h3, List.getD_cons_succ]
        rw [processOneLine_apply g i0 line r c, if_neg h2]
    · rw [if_neg (by omega), if_neg h1]
      rw [processOneLine_apply g i0 line r c, if_neg (by omega)]

/-- Pointwise description of `Puzzle::parse`: the cell at `(r, c)` is decided
by character `c` of the trimmed line at index `r` of the newline-split of the
trimmed input — counting every line of the split, blank or not. -/
theorem parse_apply (input : List Char) (r c : Fin 9) :
    (parse input) r c =
      match charToDigit10
          ((trimChars (((trimChars input).splitOn '\n').getD r.val [])).getD c.val ' ') with
      | some d => givenCell d
      | none => blankCell := by
  unfold parse
  rw [processLines_apply ((trimChars input).splitOn '\n') (fun _ _ => blankCell) 0 r c,
    if_pos (Nat.zero_le r.val), Nat.sub_zero]

/-- C6 counterexample.  In the input `1, newline, newline, 2` the second
non-blank line is `2`, but the interior blank line advances the row index, so
row 1 stays blank and the `2` lands on row 2 — the k-th non-blank line is not
assigned to row k. -/
theorem parse_blank_line_shifts_rows_cex :
    ((parse ['1', '\n', '\n', '2']) 1 0).number = none ∧
    ((parse ['1', '\n', '\n', '2']) 2 0).number = some 2 := by decide

/-- C6 as amended.  For inputs with at most 9 split lines of at most 9 trimmed
characters (the inputs the program accepts without panicking), the cell at
`(r, c)` is decided by character `c` of the trimmed line at index `r` of the
newline-split of the trimmed input: every line of the split, blank or not,
counts towards the row index, so an interior blank line leaves its row blank
and shifts subsequent lines to later rows. -/
theorem parse_line_index_spec (input : List Char)
    (_hlines : ((trimChars input).splitOn '\n').length ≤ 9)
    (_hwidth : ∀ l ∈ (trimChars input).splitOn '\n', (trimChars l).length ≤ 9)
    (r c : Fin 9) :
    (parse input) r c =
      match charToDigit10
          ((trimChars (((trimChars input).splitOn '\n').getD r.val [])).getD c.val ' ') with
      | some d => givenCell d
      | none => blankCell :=
  parse_apply input r c

/-- C6 witness at the counterexample input: line index 1 of the split is the
blank line, so row 1 is blank and row 2 holds the given 2. -/
theorem parse_line_index_spec_witness :
    ((trimChars ['1', '\n', '\n', '2']).splitOn '\n').length ≤ 9 ∧
    (∀ l ∈ (trimChars ['1', '\n', '\n', '2']).splitOn '\n', (trimChars l).length ≤ 9) ∧
    (parse ['1', '\n', '\n', '2']) 1 0 = blankCell ∧
    (parse ['1', '\n', '\n', '2']) 2 0 = givenCell 2 := by
  refine ⟨by decide, by decide, ?_, ?_⟩
  · rw [parse_line_index_spec ['1', '\n', '\n', '2'] (by decide) (by decide) 1 0]
    decide
  · rw [parse_line_index_spec ['1', '\n', '\n', '2'] (by decide) (by decide) 2 0]
    decide

/-- C7 counterexample.  The character 0 parses as a decimal digit for
`to_digit(10)`, so `parse "0"` makes cell (0,0) a given with value 0 instead
of leaving it blank as the claim states. -/
theorem parse_zero_digit_cex :
    ((parse ['0']) 0 0).number = some 0 ∧ ((parse ['0']) 0 0).given = true := by decide

/-- C7 as amended.  A character becomes a given value exactly when it is a
decimal digit 0–9 (0 included, yielding the given value 0); every other
character, including the dot, leaves the cell blank with no value. -/
theorem parse_char_classification (input : List Char)
    (_hlines : ((trimChars input).splitOn '\n').length ≤ 9)
    (_hwidth : ∀ l ∈ (trimChars input).splitOn '\n', (trimChars l).length ≤ 9)
    (r c : Fin 9) (d : Nat) :
    ((((parse input) r c).number = some d ∧ ((parse input) r c).given = true) ↔
      ('0' ≤ (trimChars (((trimChars input).splitOn '\n').getD r.val [])).getD c.val ' ' ∧
       (trimChars (((trimChars input).splitOn '\n').getD r.val [])).getD c.val ' ' ≤ '9' ∧
       d = ((trimChars (((trimChars input).splitOn '\n').getD r.val [])).getD
         c.val ' ').toNat - 48)) ∧
    (((parse input) r c).number = none ↔
      ¬('0' ≤ (trimChars (((trimChars input).splitOn '\n').getD r.val [])).getD c.val ' ' ∧
        (trimChars (((trimChars input).splitOn '\n').getD r.val [])).getD c.val ' ' ≤ '9')) := by
  rw [parse_apply input r c]
  generalize (trimChars (((trimChars input).splitOn '\n').getD r.val [])).getD c.val ' ' = ch
  by_cases h : '0' ≤ ch ∧ ch ≤ '9'
  · have hd : charToDigit10 ch = some (ch.toNat - 48) := by
      unfold charToDigit10
      rw [if_pos h]
    rw [hd]
    show ((givenCell (ch.toNat - 48)).number = some d ∧
        (givenCell (ch.toNat - 48)).given = true ↔ _) ∧
      ((givenCell (ch.toNat - 48)).number = none ↔ _)
    constructor
    · constructor
      · intro hx
        exact ⟨h.1, h.2, (Option.some.inj hx.1).symm⟩
      · intro hx
        refine ⟨?_, rfl⟩
        rw [hx.2.2]
        exact rfl
    · exact iff_of_false (fun hx => by simp [givenCell] at hx) (fun hn => hn h)
  · have hd : charToDigit10 ch = none := by
      unfold charToDigit10
      rw [if_neg h]
    rw [hd]
    show ((blankCell.number = some d ∧ blankCell.given = true) ↔ _) ∧
      ((blankCell.number = none) ↔ _)
    refine ⟨iff_of_false (fun hx => by simp [blankCell] at hx)
      (fun hx => h ⟨hx.1, hx.2.1⟩), iff_of_true rfl h⟩

/-- C7 witness at the one-character input 5: cell (0,0) is the given 5 and the
classification instance holds. -/
theorem parse_char_classification_witness :
    ((trimChars ['5']).splitOn '\n').length ≤ 9 ∧
    ((((parse ['5']) 0 0).number = some 5 ∧ ((parse ['5']) 0 0).given = true) ↔
      ('0' ≤ (trimChars (((trimChars ['5']).splitOn '\n').getD (0 : Fin 9).val [])).getD
          (0 : Fin 9).val ' ' ∧
       (trimChars (((trimChars ['5']).splitOn '\n').getD (0 : Fin 9).val [])).getD
          (0 : Fin 9).val ' ' ≤ '9' ∧
       (5 : Nat) = ((trimChars (((trimChars ['5']).splitOn '\n').getD
          (0 : Fin 9).val [])).getD (0 : Fin 9).val ' ').toNat - 48)) :=
  ⟨by decide, (parse_char_classification ['5'] (by decide) (by decide) 0 0 5).1⟩

/-! Preservation lemmas for the candidate engine: every pass writes only
candidate arrays, and a cell with the all-zero candidate array that holds a
number is never changed at all. -/

theorem getD_map_finRange {α : Type} (f : Fin 9 → α) (c : Fin 9) (d : α) :
    ((List.finRange 9).map f).getD c.val d = f c := by
  have h : c.val < (List.finRange 9).length := by
    rw [List.length_finRange]
    exact c.isLt
  rw [List.getD_eq_getElem?_getD, List.getElem?_map, List.getElem?_eq_getElem h,
    List.getElem_finRange]
  simp

theorem compare_write_number (cell : Cell) (new : List Nat) :
    (if new = cell.candidates then cell
     else { cell with candidates := new }).number = cell.number := by
  by_cases h : new = cell.candidates
  · rw [if_pos h]
  · rw [if_neg h]

theorem compare_write_given (cell : Cell) (new : List Nat) :
    (if new = cell.candidates then cell
     else { cell with candidates := new }).given = cell.given := by
  by_cases h : new = cell.candidates
  · rw [if_pos h]
  · rw [if_neg h]

theorem reduce_empty_at (cs : List (List Nat)) (i : Nat) (hi : i < 9)
    (h : cs.getD i [] = []) : (reduce_candidates_by_uniqueness cs).getD i [] = [] := by
  rw [getD_reduce cs i hi, h]
  rfl

theorem vec_of_rep0 (c : Cell) (h : c.candidates = List.replicate 9 0) :
    candidates_as_vec c = [] := by
  rw [candidates_as_vec, h]
  exact filter_pos_replicate_zero 9

theorem sara_rows_apply (g : Grid) (r c : Fin 9) :
    (sara_rows g).1 r c =
      if rowNewCand g r c = (g r c).candidates then g r c
      else { g r c with candidates := rowNewCand g r c } := rfl

theorem sara_columns_apply (g : Grid) (r c : Fin 9) :
    (sara_columns g).1 r c =
      if colNewCand g r c = (g r c).candidates then g r c
      else { g r c with candidates := colNewCand g r c } := rfl

theorem sara_blocks_apply (g : Grid) (r c : Fin 9) :
    (sara_blocks g).1 r c =
      if blockNewCand g r c = (g r c).candidates then g r c
      else { g r c with candidates := blockNewCand g r c } := rfl

theorem sara_rows_number (g : Grid) (r c : Fin 9) :
    ((sara_rows g).1 r c).number = (g r c).number := by
  rw [sara_rows_apply]
  exact compare_write_number _ _

theorem sara_columns_number (g : Grid) (r c : Fin 9) :
    ((sara_columns g).1 r c).number = (g r c).number := by
  rw [sara_columns_apply]
  exact compare_write_number _ _

theorem sara_blocks_number (g : Grid) (r c : Fin 9) :
    ((sara_blocks g).1 r c).number = (g r c).number := by
  rw [sara_blocks_apply]
  exact compare_write_number _ _

theorem sara_rows_given (g : Grid) (r c : Fin 9) :
    ((sara_rows g).1 r c).given = (g r c).given := by
  rw [sara_rows_apply]
  exact compare_write_given _ _

theorem sara_columns_given (g : Grid) (r c : Fin 9) :
    ((sara_columns g).1 r c).given = (g r c).given := by
  rw [sara_columns_apply]
  exact compare_write_given _ _

theorem sara_blocks_given (g : Grid) (r c : Fin 9) :
    ((sara_blocks g).1 r c).given = (g r c).given := by
  rw [sara_blocks_apply]
  exact compare_write_given _ _

theorem sara_rows_cell_empty (g : Grid) (r c : Fin 9)
    (hc : (g r c).candidates = List.replicate 9 0) : (sara_rows g).1 r c = g r c := by
  rw [sara_rows_apply, if_pos]
  rw [hc, rowNewCand, row_reduced]
  have hin : ((List.finRange 9).map (fun j => candidates_as_vec (g r j))).getD c.val [] = [] := by
    rw [getD_map_finRange]
    exact vec_of_rep0 _ hc
  rw [reduce_empty_at _ c.val c.isLt hin]
  rfl

theorem sara_columns_cell_empty (g : Grid) (r c : Fin 9)
    (hc : (g r c).candidates = List.replicate 9 0) : (sara_columns g).1 r c = g r c := by
  rw [sara_columns_apply, if_pos]
  rw [hc, colNewCand, column_reduced]
  have hin : ((List.finRange 9).map (fun j => candidates_as_vec (g j c))).getD r.val [] = [] := by
    rw [getD_map_finRange]
    exact vec_of_rep0 _ hc
  rw [reduce_empty_at _ r.val r.isLt hin]
  rfl

theorem blockCell_local (g : Grid) (r c : Fin 9) :
    blockCell g (block_num_for_row_col r c)
      ⟨r.val % 3, by omega⟩ ⟨c.val % 3, by omega⟩ = g r c := by
  unfold blockCell block_num_for_row_col
  have key : ∀ (a b : Fin 9), a = r → b = c → g a b = g r c := by
    intro a b ha hb
    rw [ha, hb]
  apply key
  · apply Fin.ext
    show (((r.val / 3) * 3 + c.val / 3) / 3) * 3 + r.val % 3 = r.val
    have hr := r.isLt
    have hc := c.isLt
    omega
  · apply Fin.ext
    show (((r.val / 3) * 3 + c.val / 3) % 3) * 3 + c.val % 3 = c.val
    have hr := r.isLt
    have hc := c.isLt
    omega

theorem block_slice_vec_getD (g : Grid) (b : Fin 9) (i j : Fin 3) :
    ((block_as_slice g b).map candidates_as_vec).getD (i.val * 3 + j.val) [] =
      candidates_as_vec (blockCell g b i j) := by
  fin_cases i <;> fin_cases j <;> rfl

theorem sara_blocks_cell_empty (g : Grid) (r c : Fin 9)
    (hc : (g r c).candidates = List.replicate 9 0) : (sara_blocks g).1 r c = g r c := by
  rw [sara_blocks_apply, if_pos]
  rw [hc, blockNewCand, block_reduced]
  have hloc : localIndex r c = (⟨r.val % 3, by omega⟩ : Fin 3).val * 3 +
      (⟨c.val % 3, by omega⟩ : Fin 3).val := rfl
  have hin : ((block_as_slice g (block_num_for_row_col r c)).map candidates_as_vec).getD
      (localIndex r c) [] = [] := by
    rw [hloc, block_slice_vec_getD, blockCell_local]
    exact vec_of_rep0 _ hc
  have hlt : localIndex r c < 9 := by
    unfold localIndex
    have hr := r.isLt
    have hcv := c.isLt
    omega
  rw [reduce_empty_at _ (localIndex r c) hlt hin]
  rfl

theorem sara_flex_number (g : Grid) (r c : Fin 9) :
    ((sara_flex g).1 r c).number = (g r c).number := by
  show ((sara_blocks (sara_columns (sara_rows g).1).1).1 r c).number = _
  rw [sara_blocks_number, sara_columns_number, sara_rows_number]

theorem sara_flex_given (g : Grid) (r c : Fin 9) :
    ((sara_flex g).1 r c).given = (g r c).given := by
  show ((sara_blocks (sara_columns (sara_rows g).1).1).1 r c).given = _
  rw [sara_blocks_given, sara_columns_given, sara_rows_given]

theorem sara_flex_cell_empty (g : Grid) (r c : Fin 9)
    (hc : (g r c).candidates = List.replicate 9 0) : (sara_flex g).1 r c = g r c := by
  show (sara_blocks (sara_columns (sara_rows g).1).1).1 r c = g r c
  have h1 : (sara_rows g).1 r c = g r c := sara_rows_cell_empty g r c hc
  have h2 : (sara_columns (sara_rows g).1).1 r c = g r c := by
    rw [sara_columns_cell_empty _ r c (by rw [h1]; exact hc), h1]
  rw [sara_blocks_cell_empty _ r c (by rw [h2]; exact hc), h2]

theorem remove_candidate_number (c : Cell) (d : Nat) :
    ((remove_candidate c d).1).number = c.number := by
  unfold remove_candidate
  by_cases h : d ∈ candidates_as_vec c
  · rw [if_pos h]
    rfl
  · rw [if_neg h]

theorem remove_candidate_given (c : Cell) (d : Nat) :
    ((remove_candidate c d).1).given = c.given := by
  unfold remove_candidate
  by_cases h : d ∈ candidates_as_vec c
  · rw [if_pos h]
    rfl
  · rw [if_neg h]

theorem remove_candidate_rep0 (c : Cell) (d : Nat)
    (h : c.candidates = List.replicate 9 0) : (remove_candidate c d).1 = c := by
  unfold remove_candidate
  rw [if_neg (by rw [vec_of_rep0 c h]; exact List.not_mem_nil d)]

theorem water_cannon_step_cell (g : Grid) (b : Fin 9) (d : Nat) (r c : Fin 9) :
    (water_cannon_step g b d).1 r c = g r c ∨
    (water_cannon_step g b d).1 r c = (remove_candidate (g r c) d).1 := by
  unfold water_cannon_step
  rcases line_up_water_cannon (fun i j => blockCell g b i j) d with r' | c' | _
  · by_cases h : r = blockRowIdx b r' ∧ c.val / 3 ≠ b.val % 3
    · right
      show (if r = blockRowIdx b r' ∧ c.val / 3 ≠ b.val % 3 then
        (remove_candidate (g r c) d).1 else g r c) = _
      rw [if_pos h]
    · left
      show (if r = blockRowIdx b r' ∧ c.val / 3 ≠ b.val % 3 then
        (remove_candidate (g r c) d).1 else g r c) = _
      rw [if_neg h]
  · by_cases h : c = blockColIdx b c' ∧ r.val / 3 ≠ b.val / 3
    · right
      show (if c = blockColIdx b c' ∧ r.val / 3 ≠ b.val / 3 then
        (remove_candidate (g r c) d).1 else g r c) = _
      rw [if_pos h]
    · left
      show (if c = blockColIdx b c' ∧ r.val / 3 ≠ b.val / 3 then
        (remove_candidate (g r c) d).1 else g r c) = _
      rw [if_neg h]
  · left
    rfl

theorem foldl_preserve {α β : Type} (f : β → α → β) (P : β → Prop)
    (hstep : ∀ b a, P b → P (f b a)) : ∀ (l : List α) (b : β), P b → P (l.foldl f b)
  | [], _, hb => hb
  | a :: l, b, hb => foldl_preserve f P hstep l (f b a) (hstep b a hb)

theorem water_cannon_round_pres (g : Grid) (Q : Grid → Prop)
    (hstep : ∀ g2 b d, Q g2 → Q (water_cannon_step g2 b d).1) (hg : Q g) :
    Q (water_cannon_round g).1 := by
  unfold water_cannon_round
  refine foldl_preserve _ (fun x : Grid × Nat => Q x.1) ?_ (List.finRange 9) (g, 0) hg
  intro acc b hacc
  refine foldl_preserve _ (fun x : Grid × Nat => Q x.1) ?_ (List.range' 1 9) acc hacc
  intro acc2 number hacc2
  exact hstep acc2.1 b number hacc2

theorem water_cannon_round_number (g : Grid) (r c : Fin 9) :
    ((water_cannon_round g).1 r c).number = (g r c).number := by
  refine water_cannon_round_pres g (fun h => (h r c).number = (g r c).number) ?_ rfl
  intro g2 b d hq
  rcases water_cannon_step_cell g2 b d r c with h | h
  · rw [h]
    exact hq
  · rw [h, remove_candidate_number]
    exact hq

theorem water_cannon_round_given (g : Grid) (r c : Fin 9) :
    ((water_cannon_round g).1 r c).given = (g r c).given := by
  refine water_cannon_round_pres g (fun h => (h r c).given = (g r c).given) ?_ rfl
  intro g2 b d hq
  rcases water_cannon_step_cell g2 b d r c with h | h
  · rw [h]
    exact hq
  · rw [h, remove_candidate_given]
    exact hq

theorem water_cannon_round_cell_eq (g : Grid) (r c : Fin 9) (target : Cell)
    (htc : target.candidates = List.replicate 9 0) (hg : g r c = target) :
    (water_cannon_round g).1 r c = target := by
  refine water_cannon_round_pres g (fun h => h r c = target) ?_ hg
  intro g2 b d hq
  rcases water_cannon_step_cell g2 b d r c with h | h
  · rw [h]
    exact hq
  · rw [h, hq, remove_candidate_rep0 target d htc]

theorem reduce_loop_pres (Q : Grid → Prop)
    (hflex : ∀ g, Q g → Q (sara_flex g).1)
    (hcannon : ∀ g, Q g → Q (water_cannon_round g).1) (fuel : Nat) :
    ∀ (g : Grid), Q g → Q (reduce_loop fuel g) := by
  induction fuel with
  | zero => exact fun _ hg => hg
  | succ fuel ih =>
    intro g hg
    rw [reduce_loop]
    by_cases h : (sara_flex g).2 + (water_cannon_round (sara_flex g).1).2 = 0
    · rw [if_pos h]
      exact hcannon _ (hflex g hg)
    · rw [if_neg h]
      exact ih _ (hcannon _ (hflex g hg))

theorem initial_candidates_number (g : Grid) (r c : Fin 9) :
    ((initial_candidates g) r c).number = (g r c).number := by
  show (match (g r c).number with
    | some _ => g r c
    | none => { g r c with candidates := cellInitialCandidates g r c }).number = _
  cases hc : (g r c).number with
  | some n => exact hc
  | none => exact hc

theorem initial_candidates_given (g : Grid) (r c : Fin 9) :
    ((initial_candidates g) r c).given = (g r c).given := by
  show (match (g r c).number with
    | some _ => g r c
    | none => { g r c with candidates := cellInitialCandidates g r c }).given = _
  cases (g r c).number <;> rfl

theorem initial_candidates_valued (g : Grid) (r c : Fin 9)
    (h : (g r c).number ≠ none) : (initial_candidates g) r c = g r c := by
  show (match (g r c).number with
    | some _ => g r c
    | none => { g r c with candidates := cellInitialCandidates g r c }) = _
  cases hc : (g r c).number with
  | some n => rfl
  | none => exact absurd hc h

theorem assign_candidates_number (g : Grid) (r c : Fin 9) :
    ((assign_candidates g) r c).number = (g r c).number := by
  unfold assign_candidates
  refine reduce_loop_pres (fun h => (h r c).number = (g r c).number) ?_ ?_
    candidateFuel (initial_candidates g) (initial_candidates_number g r c)
  · intro g2 hq
    rw [sara_flex_number]
    exact hq
  · intro g2 hq
    rw [water_cannon_round_number]
    exact hq

theorem assign_candidates_given (g : Grid) (r c : Fin 9) :
    ((assign_candidates g) r c).given = (g r c).given := by
  unfold assign_candidates
  refine reduce_loop_pres (fun h => (h r c).given = (g r c).given) ?_ ?_
    candidateFuel (initial_candidates g) (initial_candidates_given g r c)
  · intro g2 hq
    rw [sara_flex_given]
    exact hq
  · intro g2 hq
    rw [water_cannon_round_given]
    exact hq

theorem assign_candidates_valued_cell (g : Grid) (r c : Fin 9)
    (hv : (g r c).number ≠ none) (hc : (g r c).candidates = List.replicate 9 0) :
    (assign_candidates g) r c = g r c := by
  unfold assign_candidates
  refine reduce_loop_pres (fun h => h r c = g r c) ?_ ?_
    candidateFuel (initial_candidates g) (initial_candidates_valued g r c hv)
  · intro g2 hq
    rw [sara_flex_cell_empty g2 r c (by rw [hq]; exact hc)]
    exact hq
  · intro g2 hq
    exact water_cannon_round_cell_eq g2 r c (g r c) hc hq

/-! C9: the valued-cell invariant — a cell holding a number always holds the
all-zero candidate array — is established by `parse` and preserved by every
engine operation. -/

theorem parse_valuedEmpty (input : List Char) : ValuedEmpty (parse input) :=
  fun r c _ => parse_candidates_rep0 input r c

theorem gridSet_valuedEmpty (g : Grid) (r c : Fin 9) (cell : Cell)
    (h : ValuedEmpty g) (hcell : cell.number ≠ none → cell.candidates = List.replicate 9 0) :
    ValuedEmpty (gridSet g r c cell) := by
  intro x y hv
  unfold gridSet at hv ⊢
  by_cases hxy : x = r ∧ y = c
  · rw [if_pos hxy] at hv ⊢
    exact hcell hv
  · rw [if_neg hxy] at hv ⊢
    exact h x y hv

theorem tier1_grid_valuedEmpty (g : Grid) (h : ValuedEmpty g) :
    ValuedEmpty (tier1_grid g) := by
  intro r c hv
  rcases hvec : candidates_as_vec (g r c) with _ | ⟨v, _ | ⟨w, tail⟩⟩
  · have hcell : tier1_grid g r c = g r c := by
      show (match candidates_as_vec (g r c) with
        | [v] => { g r c with number := some v, candidates := List.replicate 9 0 }
        | _ => g r c) = g r c
      rw [hvec]
    rw [hcell] at hv ⊢
    exact h r c hv
  · have hcell : tier1_grid g r c =
        { g r c with number := some v, candidates := List.replicate 9 0 } := by
      show (match candidates_as_vec (g r c) with
        | [v] => { g r c with number := some v, candidates := List.replicate 9 0 }
        | _ => g r c) = _
      rw [hvec]
    rw [hcell]
  · have hcell : tier1_grid g r c = g r c := by
      show (match candidates_as_vec (g r c) with
        | [v] => { g r c with number := some v, candidates := List.replicate 9 0 }
        | _ => g r c) = g r c
      rw [hvec]
    rw [hcell] at hv ⊢
    exact h r c hv

theorem consolidate_valuedEmpty (g : Grid) (h : ValuedEmpty g) :
    ValuedEmpty (consolidate_candidates g).1 := by
  have h1 : ValuedEmpty (tier1_grid g) := tier1_grid_valuedEmpty g h
  unfold consolidate_candidates
  by_cases hp : (tier1_records g).length > 0
  · rw [if_pos hp]
    exact h1
  · rw [if_neg hp]
    cases h2 : tier2_hit (tier1_grid g) with
    | some q =>
      show ValuedEmpty (update_block (tier1_grid g) q.1 q.2.1 q.2.2.1 q.2.2.2)
      exact gridSet_valuedEmpty _ _ _ _ h1 (fun _ => rfl)
    | none =>
      cases h3 : tier3_hit (tier1_grid g) with
      | some q =>
        show ValuedEmpty (set_number (tier1_grid g) q.1 q.2.1 q.2.2)
        exact gridSet_valuedEmpty _ _ _ _ h1 (fun _ => rfl)
      | none =>
        cases h4 : tier4_hit (tier1_grid g) with
        | some q =>
          show ValuedEmpty (set_number (tier1_grid g) q.1 q.2.1 q.2.2)
          exact gridSet_valuedEmpty _ _ _ _ h1 (fun _ => rfl)
        | none =>
          show ValuedEmpty (tier1_grid g)
          exact h1

theorem assign_valuedEmpty (g : Grid) (h : ValuedEmpty g) :
    ValuedEmpty (assign_candidates g) := by
  intro r c hv
  have hnum : (g r c).number ≠ none := by
    rw [← assign_candidates_number g r c]
    exact hv
  rw [assign_candidates_valued_cell g r c hnum (h r c hnum)]
  exact h r c hnum

theorem step_valuedEmpty (g : Grid) (h : ValuedEmpty g) : ValuedEmpty (step g).1 :=
  consolidate_valuedEmpty _ (assign_valuedEmpty g h)

/-- C9.  The spec's data-model invariant: `parse` creates only cells whose
candidate array is all zeros, and `assign_candidates`, `consolidate_candidates`
and `step` preserve the property that every cell holding a number has the
empty (all-zero) candidate array — propagation never touches a valued cell and
every value assignment clears the cell's candidates. -/
theorem valued_cells_empty_candidates_invariant :
    (∀ input : List Char, ValuedEmpty (parse input)) ∧
    (∀ g : Grid, ValuedEmpty g → ValuedEmpty (assign_candidates g)) ∧
    (∀ g : Grid, ValuedEmpty g → ValuedEmpty (consolidate_candidates g).1) ∧
    (∀ g : Grid, ValuedEmpty g → ValuedEmpty (step g).1) :=
  ⟨parse_valuedEmpty, assign_valuedEmpty, consolidate_valuedEmpty, step_valuedEmpty⟩

/-- C9 witness: the invariant holds after parsing the one-character input 1
and is carried through a propagation pass from there. -/
theorem valued_cells_empty_candidates_invariant_witness :
    ValuedEmpty (parse ['1']) ∧ ValuedEmpty (assign_candidates (parse ['1'])) :=
  ⟨by decide, valued_cells_empty_candidates_invariant.2.1 (parse ['1']) (by decide)⟩

/-! C8: running the propagation pass twice in a row changes nothing the second
time, because the second call recomputes every unresolved cell's candidates
from the (unchanged) numbers and reruns the same deterministic fixpoint. -/

theorem numbers_in_row_congr (g g2 : Grid)
    (hn : ∀ r c, (g2 r c).number = (g r c).number) (r : Fin 9) :
    numbers_in_row g2 r = numbers_in_row g r := by
  unfold numbers_in_row row
  rw [List.filterMap_map, List.filterMap_map]
  have he : ((fun cell => cell.number) ∘ fun i => g2 r i) =
      ((fun cell => cell.number) ∘ fun i => g r i) := by
    funext i
    exact hn r i
  rw [he]

theorem numbers_in_column_congr (g g2 : Grid)
    (hn : ∀ r c, (g2 r c).number = (g r c).number) (c : Fin 9) :
    numbers_in_column g2 c = numbers_in_column g c := by
  unfold numbers_in_column column
  rw [List.filterMap_map, List.filterMap_map]
  have he : ((fun cell => cell.number) ∘ fun i => g2 i c) =
      ((fun cell => cell.number) ∘ fun i => g i c) := by
    funext i
    exact hn i c
  rw [he]

theorem numbers_in_block_congr (g g2 : Grid)
    (hn : ∀ r c, (g2 r c).number = (g r c).number) (b : Fin 9) :
    numbers_in_block g2 b = numbers_in_block g b := by
  unfold numbers_in_block block_as_slice
  rw [List.filterMap_map, List.filterMap_map]
  have he : ((fun cell => cell.number) ∘ fun p : Fin 3 × Fin 3 => blockCell g2 b p.1 p.2) =
      ((fun cell => cell.number) ∘ fun p : Fin 3 × Fin 3 => blockCell g b p.1 p.2) := by
    funext p
    exact hn _ _
  rw [he]

theorem cellInitialCandidates_congr (g g2 : Grid)
    (hn : ∀ r c, (g2 r c).number = (g r c).number) (r c : Fin 9) :
    cellInitialCandidates g2 r c = cellInitialCandidates g r c := by
  unfold cellInitialCandidates
  rw [numbers_in_block_congr g g2 hn, numbers_in_row_congr g g2 hn,
    numbers_in_column_congr g g2 hn]

theorem initial_candidates_congr (g g2 : Grid)
    (hn : ∀ r c, (g2 r c).number = (g r c).number)
    (hg : ∀ r c, (g2 r c).given = (g r c).given)
    (hv : ∀ r c, (g r c).number ≠ none → g2 r c = g r c) :
    initial_candidates g2 = initial_candidates g := by
  funext r c
  show (match (g2 r c).number with
    | some _ => g2 r c
    | none => { g2 r c with candidates := cellInitialCandidates g2 r c }) =
    (match (g r c).number with
    | some _ => g r c
    | none => { g r c with candidates := cellInitialCandidates g r c })
  cases hc : (g r c).number with
  | some n =>
    have h2 : (g2 r c).number = some n := by rw [hn r c, hc]
    rw [h2]
    exact hv r c (by rw [hc]; exact fun hx => Option.noConfusion hx)
  | none =>
    have h2 : (g2 r c).number = none := by rw [hn r c, hc]
    rw [h2]
    show Cell.mk (g2 r c).number (g2 r c).given (cellInitialCandidates g2 r c) =
      Cell.mk (g r c).number (g r c).given (cellInitialCandidates g r c)
    rw [hn r c, hg r c, cellInitialCandidates_congr g g2 hn r c]

/-- C8.  For every grid satisfying the data-model invariant (valued cells have
empty candidate arrays), running `assign_candidates` — the initial candidate
derivation followed by the elimination fixpoint loop — twice consecutively
with nothing in between leaves every cell unchanged after the second call:
the second call recomputes the same initial candidates from the unchanged
numbers and the deterministic fixpoint loop then reproduces the same grid. -/
theorem assign_candidates_idempotent (g : Grid) (h : ValuedEmpty g) :
    assign_candidates (assign_candidates g) = assign_candidates g := by
  have hn : ∀ r c, ((assign_candidates g) r c).number = (g r c).number :=
    fun r c => assign_candidates_number g r c
  have hgiven : ∀ r c, ((assign_candidates g) r c).given = (g r c).given :=
    fun r c => assign_candidates_given g r c
  have hv : ∀ r c, (g r c).number ≠ none → (assign_candidates g) r c = g r c :=
    fun r c hne => assign_candidates_valued_cell g r c hne (h r c hne)
  have hinit : initial_candidates (assign_candidates g) = initial_candidates g :=
    initial_candidates_congr g (assign_candidates g) hn hgiven hv
  show reduce_loop candidateFuel (initial_candidates (assign_candidates g)) =
    assign_candidates g
  rw [hinit]
  rfl

/-- C8 witness: a freshly parsed one-character grid satisfies the invariant,
so one propagation pass is a fixed point of a second one. -/
theorem assign_candidates_idempotent_witness :
    ValuedEmpty (parse ['1']) ∧
    assign_candidates (assign_candidates (parse ['1'])) =
      assign_candidates (parse ['1']) :=
  ⟨by decide, assign_candidates_idempotent (parse ['1']) (by decide)⟩

/-! Claim C4: `consolidate_candidates` applies exactly the first applicable
tier.  Helper lemmas: a well-formed cell's candidate vector is the sorted,
duplicate-free list of its members, hence equal to filtering 1..9 by
membership, which lets the early-return scans over candidate vectors be
rephrased as scans over the value range. -/

theorem mem_vec_number_none {c : Cell} (hOK : CellOK c) {v : Nat}
    (hm : v ∈ candidates_as_vec c) : c.number = none := by
  cases hn : c.number with
  | none => rfl
  | some n =>
    have h0 := hOK.2.2 (by rw [hn]; exact fun hcon => Option.noConfusion hcon)
    rw [vec_of_rep0 c h0] at hm
    exact absurd hm (List.not_mem_nil v)

theorem sorted_vec_eq_filter (c : Cell) (hOK : CellOK c) :
    candidates_as_vec c =
      (List.range' 1 9).filter (fun v => decide (v ∈ candidates_as_vec c)) := by
  haveI : IsAntisymm Nat (· < ·) := ⟨fun a b h1 h2 => absurd h2 (Nat.lt_asymm h1)⟩
  have hnd1 : (candidates_as_vec c).Nodup := vec_nodup_of_cellOK hOK
  have hsorted1 : List.Pairwise (· < ·) (candidates_as_vec c) :=
    (List.chain'_iff_pairwise).mp ((strictSorted_iff_chain' _).mp hOK.1)
  have hsorted2 : List.Pairwise (· < ·)
      ((List.range' 1 9).filter (fun v => decide (v ∈ candidates_as_vec c))) :=
    List.Pairwise.filter _ (List.pairwise_lt_range' 1 9 1 (by decide))
  have hnd2 : ((List.range' 1 9).filter
      (fun v => decide (v ∈ candidates_as_vec c))).Nodup :=
    hsorted2.imp (fun h => Nat.ne_of_lt h)
  have hmem : ∀ a, a ∈ candidates_as_vec c ↔
      a ∈ (List.range' 1 9).filter (fun v => decide (v ∈ candidates_as_vec c)) := by
    intro a
    rw [List.mem_filter, List.mem_range'_1, decide_eq_true_eq]
    constructor
    · intro ha
      have hpos : 0 < a := of_decide_eq_true
        (List.mem_filter.mp (show a ∈ c.candidates.filter (fun x => decide (0 < x)) from ha)).2
      have hle := hOK.2.1 a ha
      exact ⟨⟨by omega, by omega⟩, ha⟩
    · exact fun h => h.2
  exact List.eq_of_perm_of_sorted ((List.perm_ext_iff_of_nodup hnd1 hnd2).mpr hmem)
    hsorted1 hsorted2

theorem vec_find_eq_range (c : Cell) (hOK : CellOK c) (p : Nat → Bool) :
    (candidates_as_vec c).find? p =
      (List.range' 1 9).find? (fun v =>
        decide (decide (v ∈ candidates_as_vec c) = true ∧ p v = true)) := by
  conv_lhs => rw [sorted_vec_eq_filter c hOK]
  exact List.find?_filter _ _ _

theorem map_proj4_id {α β γ δ : Type} (o : Option (α × β × γ × δ)) :
    o.map (fun p => (p.1, p.2.1, p.2.2.1, p.2.2.2)) = o := by
  cases o with
  | none => rfl
  | some p => rfl

theorem map_proj3_id {α β γ : Type} (o : Option (α × β × γ)) :
    o.map (fun p => (p.1, p.2.1, p.2.2)) = o := by
  cases o with
  | none => rfl
  | some p => rfl

/-- The block hidden-single scan of `consolidate_candidates` (blocks, local
rows, local columns, then the cell's candidate vector, first hit returned)
equals the spec's first-match scan over the flattened
block/row/column/value product. -/
theorem tier2_hit_eq_spec (g : Grid) (hOK : GridOK g) :
    tier2_hit g = hidden_block_first g := by
  have hinner : ∀ (b : Fin 9) (i j : Fin 3),
      (candidates_as_vec (blockCell g b i j)).find?
          (fun cand => decide (count_candidates_in_block_for g b cand = 1)) =
        (List.range' 1 9).find? (fun v =>
          decide (decide (v ∈ candidates_as_vec (blockCell g b i j)) = true ∧
            decide (count_candidates_in_block_for g b v = 1) = true)) :=
    fun b i j => vec_find_eq_range (blockCell g b i j) (hOK _ _) _
  unfold tier2_hit hidden_block_first
  simp only [hinner]
  simp only [findSome?_find?_sprod]
  rw [map_proj4_id]
  have hpred : ∀ (p : Fin 9 × Fin 3 × Fin 3 × Nat),
      (decide (decide (p.2.2.2 ∈ candidates_as_vec (blockCell g p.1 p.2.1 p.2.2.1)) = true ∧
        decide (count_candidates_in_block_for g p.1 p.2.2.2 = 1) = true)) =
      decide ((blockCell g p.1 p.2.1 p.2.2.1).number = none ∧
        p.2.2.2 ∈ candidates_as_vec (blockCell g p.1 p.2.1 p.2.2.1) ∧
        count_candidates_in_block_for g p.1 p.2.2.2 = 1) := by
    intro p
    rw [decide_eq_decide]
    constructor
    · rintro ⟨h1, h2⟩
      have hm := of_decide_eq_true h1
      exact ⟨mem_vec_number_none (hOK _ _) hm, hm, of_decide_eq_true h2⟩
    · rintro ⟨-, h1, h2⟩
      exact ⟨decide_eq_true h1, decide_eq_true h2⟩
  exact congrArg (fun f => List.find? f _) (funext hpred)

/-- The row hidden-single scan equals the spec's first-match scan over the
row/column/value product. -/
theorem tier3_hit_eq_spec (g : Grid) (hOK : GridOK g) :
    tier3_hit g = hidden_row_first g := by
  have hinner : ∀ (r c : Fin 9),
      (candidates_as_vec (g r c)).find?
          (fun cand => decide (count_candidates_in_row g r cand = 1)) =
        (List.range' 1 9).find? (fun v =>
          decide (decide (v ∈ candidates_as_vec (g r c)) = true ∧
            decide (count_candidates_in_row g r v = 1) = true)) :=
    fun r c => vec_find_eq_range (g r c) (hOK r c) _
  unfold tier3_hit hidden_row_first
  simp only [hinner]
  simp only [findSome?_find?_sprod]
  rw [map_proj3_id]
  have hpred : ∀ (p : Fin 9 × Fin 9 × Nat),
      (decide (decide (p.2.2 ∈ candidates_as_vec (g p.1 p.2.1)) = true ∧
        decide (count_candidates_in_row g p.1 p.2.2 = 1) = true)) =
      decide ((g p.1 p.2.1).number = none ∧
        p.2.2 ∈ candidates_as_vec (g p.1 p.2.1) ∧
        count_candidates_in_row g p.1 p.2.2 = 1) := by
    intro p
    rw [decide_eq_decide]
    constructor
    · rintro ⟨h1, h2⟩
      have hm := of_decide_eq_true h1
      exact ⟨mem_vec_number_none (hOK _ _) hm, hm, of_decide_eq_true h2⟩
    · rintro ⟨-, h1, h2⟩
      exact ⟨decide_eq_true h1, decide_eq_true h2⟩
  exact congrArg (fun f => List.find? f _) (funext hpred)

/-- The column hidden-single scan equals the spec's first-match scan over the
column/row/value product (the code returns `(row, col, value)`, the spec scan
`(col, row, value)`). -/
theorem tier4_hit_eq_spec (g : Grid) (hOK : GridOK g) :
    tier4_hit g = (hidden_col_first g).map (fun p => (p.2.1, p.1, p.2.2)) := by
  have hinner : ∀ (c r : Fin 9),
      (candidates_as_vec (g r c)).find?
          (fun cand => decide (count_candidates_in_col g c cand = 1)) =
        (List.range' 1 9).find? (fun v =>
          decide (decide (v ∈ candidates_as_vec (g r c)) = true ∧
            decide (count_candidates_in_col g c v = 1) = true)) :=
    fun c r => vec_find_eq_range (g r c) (hOK r c) _
  unfold tier4_hit hidden_col_first
  simp only [hinner]
  simp only [findSome?_find?_sprod]
  have hpred : ∀ (p : Fin 9 × Fin 9 × Nat),
      (decide (decide (p.2.2 ∈ candidates_as_vec (g p.2.1 p.1)) = true ∧
        decide (count_candidates_in_col g p.1 p.2.2 = 1) = true)) =
      decide ((g p.2.1 p.1).number = none ∧
        p.2.2 ∈ candidates_as_vec (g p.2.1 p.1) ∧
        count_candidates_in_col g p.1 p.2.2 = 1) := by
    intro p
    rw [decide_eq_decide]
    constructor
    · rintro ⟨h1, h2⟩
      have hm := of_decide_eq_true h1
      exact ⟨mem_vec_number_none (hOK _ _) hm, hm, of_decide_eq_true h2⟩
    · rintro ⟨-, h1, h2⟩
      exact ⟨decide_eq_true h1, decide_eq_true h2⟩
  exact congrArg (fun o => o.map (fun p => (p.2.1, p.1, p.2.2)))
    (congrArg (fun f => List.find? f _) (funext hpred))

/-- A cell whose candidate vector is the singleton `[v]` is assigned `v` (with
cleared candidates) by tier 1. -/
theorem tier1_grid_single (g : Grid) (r c : Fin 9) (v : Nat)
    (h : candidates_as_vec (g r c) = [v]) :
    tier1_grid g r c = { g r c with number := some v, candidates := List.replicate 9 0 } := by
  show (match candidates_as_vec (g r c) with
    | [v] => { g r c with number := some v, candidates := List.replicate 9 0 }
    | _ => g r c) = _
  rw [h]

/-- A well-formed cell that is no naked single is untouched by tier 1. -/
theorem tier1_grid_not_single (g : Grid) (r c : Fin 9) (hOK : CellOK (g r c))
    (hno : ∀ v : Nat, ¬ nakedSingle g r c v) : tier1_grid g r c = g r c := by
  show (match candidates_as_vec (g r c) with
    | [v] => { g r c with number := some v, candidates := List.replicate 9 0 }
    | _ => g r c) = g r c
  cases hv : candidates_as_vec (g r c) with
  | nil => rfl
  | cons a t =>
    cases t with
    | cons b t2 => rfl
    | nil =>
      exfalso
      cases hn : (g r c).number with
      | none => exact hno a ⟨hn, hv⟩
      | some n =>
        have h0 := hOK.2.2 (by rw [hn]; exact fun hcon => Option.noConfusion hcon)
        have hv0 : candidates_as_vec (g r c) = [] := vec_of_rep0 _ h0
        rw [hv] at hv0
        exact List.noConfusion hv0

/-- The tier-1 record list holds exactly one `SingleCandidateForCell` record
per naked single of the grid, in block coordinates. -/
theorem tier1_records_char (g : Grid) (hOK : GridOK g) (x : Consolidation) :
    x ∈ tier1_records g ↔
      ∃ (r c : Fin 9) (v : Nat), nakedSingle g r c v ∧
        x = Consolidation.SingleCandidateForCell
          (v, (block_num_for_row_col r c).val, r.val % 3, c.val % 3) := by
  constructor
  · intro hx
    obtain ⟨q, -, hfq⟩ := List.mem_filterMap.mp hx
    have hfq2 : (match candidates_as_vec (blockCell g q.1 q.2.1 q.2.2) with
      | [v] => some (Consolidation.SingleCandidateForCell (v, q.1.val, q.2.1.val, q.2.2.val))
      | _ => none) = some x := hfq
    cases hv : candidates_as_vec (blockCell g q.1 q.2.1 q.2.2) with
    | nil =>
      rw [hv] at hfq2
      exact Option.noConfusion hfq2
    | cons a t =>
      cases t with
      | cons b t2 =>
        rw [hv] at hfq2
        exact Option.noConfusion hfq2
      | nil =>
        rw [hv] at hfq2
        have hx2 : Consolidation.SingleCandidateForCell
            (a, q.1.val, q.2.1.val, q.2.2.val) = x := Option.some.inj hfq2
        have hb := q.1.isLt
        have hi := q.2.1.isLt
        have hj := q.2.2.isLt
        have hRlt : (q.1.val / 3) * 3 + q.2.1.val < 9 := by omega
        have hClt : (q.1.val % 3) * 3 + q.2.2.val < 9 := by omega
        have hvec : candidates_as_vec
            (g ⟨(q.1.val / 3) * 3 + q.2.1.val, hRlt⟩
               ⟨(q.1.val % 3) * 3 + q.2.2.val, hClt⟩) = [a] := hv
        have hnum : (g ⟨(q.1.val / 3) * 3 + q.2.1.val, hRlt⟩
            ⟨(q.1.val % 3) * 3 + q.2.2.val, hClt⟩).number = none :=
          mem_vec_number_none (hOK _ _) (by rw [hvec]; exact List.mem_cons_self a [])
        refine ⟨⟨(q.1.val / 3) * 3 + q.2.1.val, hRlt⟩,
          ⟨(q.1.val % 3) * 3 + q.2.2.val, hClt⟩, a, ⟨hnum, hvec⟩, ?_⟩
        have h1 : (block_num_for_row_col ⟨(q.1.val / 3) * 3 + q.2.1.val, hRlt⟩
            ⟨(q.1.val % 3) * 3 + q.2.2.val, hClt⟩).val = q.1.val := by
          show (((q.1.val / 3) * 3 + q.2.1.val) / 3) * 3 +
            ((q.1.val % 3) * 3 + q.2.2.val) / 3 = q.1.val
          omega
        have h2 : ((⟨(q.1.val / 3) * 3 + q.2.1.val, hRlt⟩ : Fin 9)).val % 3 = q.2.1.val := by
          show ((q.1.val / 3) * 3 + q.2.1.val) % 3 = q.2.1.val
          omega
        have h3 : ((⟨(q.1.val % 3) * 3 + q.2.2.val, hClt⟩ : Fin 9)).val % 3 = q.2.2.val := by
          show ((q.1.val % 3) * 3 + q.2.2.val) % 3 = q.2.2.val
          omega
        rw [← hx2, h1, h2, h3]
  · rintro ⟨r, c, v, ⟨hnum, hvec⟩, hx⟩
    refine List.mem_filterMap.mpr
      ⟨(block_num_for_row_col r c, ⟨r.val % 3, by omega⟩, ⟨c.val % 3, by omega⟩), ?_, ?_⟩
    · simp [blockScanOrder, List.mem_product, List.mem_finRange]
    · show (match candidates_as_vec (blockCell g (block_num_for_row_col r c)
          ⟨r.val % 3, by omega⟩ ⟨c.val % 3, by omega⟩) with
        | [v] => some (Consolidation.SingleCandidateForCell
            (v, (block_num_for_row_col r c).val, r.val % 3, c.val % 3))
        | _ => none) = some x
      rw [blockCell_local g r c, hvec, hx]

/-- With no naked single anywhere, tier 1 records nothing. -/
theorem tier1_records_nil (g : Grid) (hOK : GridOK g)
    (hno : ∀ (r c : Fin 9) (v : Nat), ¬ nakedSingle g r c v) :
    tier1_records g = [] := by
  rw [List.eq_nil_iff_forall_not_mem]
  intro x hx
  obtain ⟨r, c, v, hns, -⟩ := (tier1_records_char g hOK x).mp hx
  exact hno r c v hns

/-- With no naked single anywhere, tier 1 changes no cell. -/
theorem tier1_grid_id (g : Grid) (hOK : GridOK g)
    (hno : ∀ (r c : Fin 9) (v : Nat), ¬ nakedSingle g r c v) :
    tier1_grid g = g :=
  funext fun r => funext fun c => tier1_grid_not_single g r c (hOK r c) (hno r c)

/-- With no naked single, one `consolidate_candidates` call is exactly the
spec's hidden-single cascade: the first hidden single in a block, else in a
row, else in a column, assigned alone; else no change and no records. -/
theorem consolidate_eq_hiddenSpec (g : Grid) (hOK : GridOK g)
    (hno : ∀ (r c : Fin 9) (v : Nat), ¬ nakedSingle g r c v) :
    consolidate_candidates g = hiddenSpecResult g := by
  have h1 : tier1_records g = [] := tier1_records_nil g hOK hno
  have h2 : tier1_grid g = g := tier1_grid_id g hOK hno
  unfold consolidate_candidates hiddenSpecResult
  simp only [h1, h2]
  have hlen : ¬ ((List.length ([] : List Consolidation)) > 0) := by decide
  rw [if_neg hlen, tier2_hit_eq_spec g hOK, tier3_hit_eq_spec g hOK,
    tier4_hit_eq_spec g hOK]
  cases hB : hidden_block_first g with
  | some q => rfl
  | none =>
    cases hR : hidden_row_first g with
    | some q => rfl
    | none =>
      cases hC : hidden_col_first g with
      | none => rfl
      | some q => rfl

/-- C4.  One call to `consolidate_candidates` on a well-formed grid applies
exactly the first applicable tier.  If some unresolved cell has a
single-member candidate set (a naked single), then in that same call every
such cell across the grid is assigned its candidate with cleared candidates,
every other cell is untouched, and the returned record list contains exactly
one `SingleCandidateForCell` record per naked single (in block coordinates).
Only when no naked single exists does the call reduce to the hidden-single
cascade `hiddenSpecResult`: the first hit of the block scan, else of the row
scan, else of the column scan, each assigned and returned as a one-element
record list; if no tier applies the grid is unchanged and the list empty. -/
theorem consolidate_first_applicable_tier (g : Grid) (hOK : GridOK g) :
    ((∃ (r c : Fin 9) (v : Nat), nakedSingle g r c v) →
      (∀ (r c : Fin 9) (v : Nat), nakedSingle g r c v →
        (consolidate_candidates g).1 r c =
          { g r c with number := some v, candidates := List.replicate 9 0 }) ∧
      (∀ r c : Fin 9, (∀ v : Nat, ¬ nakedSingle g r c v) →
        (consolidate_candidates g).1 r c = g r c) ∧
      (∀ x : Consolidation, x ∈ (consolidate_candidates g).2 ↔
        ∃ (r c : Fin 9) (v : Nat), nakedSingle g r c v ∧
          x = Consolidation.SingleCandidateForCell
            (v, (block_num_for_row_col r c).val, r.val % 3, c.val % 3))) ∧
    ((∀ (r c : Fin 9) (v : Nat), ¬ nakedSingle g r c v) →
      consolidate_candidates g = hiddenSpecResult g) := by
  constructor
  · rintro ⟨r0, c0, v0, hns0⟩
    have hmem : Consolidation.SingleCandidateForCell
        (v0, (block_num_for_row_col r0 c0).val, r0.val % 3, c0.val % 3) ∈
          tier1_records g :=
      (tier1_records_char g hOK _).mpr ⟨r0, c0, v0, hns0, rfl⟩
    have hne : tier1_records g ≠ [] := List.ne_nil_of_mem hmem
    have hcons : consolidate_candidates g = (tier1_grid g, tier1_records g) := by
      unfold consolidate_candidates
      rw [if_pos (List.length_pos.mpr hne)]
    rw [hcons]
    refine ⟨?_, ?_, ?_⟩
    · intro r c v hns
      exact tier1_grid_single g r c v hns.2
    · intro r c hnov
      exact tier1_grid_not_single g r c (hOK r c) hnov
    · intro x
      exact tier1_records_char g hOK x
  · exact consolidate_eq_hiddenSpec g hOK

/-- C4 witness: the water-cannon demonstration grid is well formed and has no
naked single, so the theorem instantiates there; its hidden-single conclusion
is exercised concretely. -/
theorem consolidate_first_applicable_tier_witness :
    GridOK cannonWitnessGrid ∧
      ((∀ (r c : Fin 9) (v : Nat), ¬ nakedSingle cannonWitnessGrid r c v) →
        consolidate_candidates cannonWitnessGrid = hiddenSpecResult cannonWitnessGrid) :=
  ⟨by decide, (consolidate_first_applicable_tier cannonWitnessGrid (by decide)).2⟩

end Christopher
